import Mathlib

/-!
# Buffer layout resolution of the Python bindings (`src/python/py_oiio.cpp`)

A shallow embedding of the format-code translation and of the
`oiio_bufinfo` constructor, followed by theorems about them.

Conventions of the embedding

* C++ `int` values are integers in `[-2^31, 2^31)`, `ssize_t`, `int64_t` and
  `stride_t` values are integers in `[-2^63, 2^63)`, `size_t` values are naturals
  below `2^64`.  Arithmetic that the source performs in a fixed width is followed
  by the matching reduction (`wrap32`, `wrap64`, `toSizeT`): signed overflow is
  taken to wrap around in two's complement.
* Reading `v[i]` outside a vector, or `v.back()` of an empty vector, has no defined
  result; the constructor therefore returns an `Option`, and `none` stands for
  such a read.
* Pointers are natural numbers, `0` being the null pointer.
-/

set_option linter.dupNamespace false

namespace PyOpenImageIO

/-! ## Machine integers -/

/-- Reduction of an integer to the range of a 32-bit signed `int`. -/
def wrap32 (x : Int) : Int := (x + 2147483648) % 4294967296 - 2147483648

/-- Reduction of an integer to the range of a 64-bit signed integer. -/
def wrap64 (x : Int) : Int :=
  (x + 9223372036854775808) % 18446744073709551616 - 9223372036854775808

/-- Conversion `size_t(x)` of a signed 64-bit value. -/
def toSizeT (x : Int) : Nat := (x % 18446744073709551616).toNat

/-- Values representable in a 32-bit signed `int`. -/
def InRange32 (x : Int) : Prop := -2147483648 ≤ x ∧ x < 2147483648

/-- Values representable in a 64-bit signed integer (`ssize_t`, `stride_t`). -/
def InRange64 (x : Int) : Prop := -9223372036854775808 ≤ x ∧ x < 9223372036854775808

instance (x : Int) : Decidable (InRange32 x) := by
  unfold InRange32; infer_instance

instance (x : Int) : Decidable (InRange64 x) := by
  unfold InRange64; infer_instance

/-! ## Element formats -/

/-- The base types of `TypeDesc::BASETYPE`. -/
inductive BASETYPE where
  | UNKNOWN | NONE
  | UINT8 | INT8 | UINT16 | INT16 | UINT32 | INT32 | UINT64 | INT64
  | HALF | FLOAT | DOUBLE | STRING | PTR
  deriving DecidableEq, Repr

/-- Modelled from the spec: the declaration of `TypeDesc` is not among the sources.
A format descriptor carries a base type tag, an aggregate count and an array
length (`numElements`); a descriptor made from a bare base type is a scalar
(aggregate 1) that is not an array (array length 0). -/
structure TypeDesc where
  basetype : BASETYPE
  aggregate : Nat := 1
  arraylen : Int := 0
  deriving DecidableEq, Repr

/-- Modelled from the spec: byte size of one value of a base type, as its name
says (8-, 16-, 32- and 64-bit integers, 16-bit half, 32-bit float, 64-bit double);
`UNKNOWN` and `NONE` have size 0; strings and pointers are one 64-bit pointer. -/
def BASETYPE.basesize : BASETYPE → Nat
  | .UNKNOWN => 0
  | .NONE => 0
  | .UINT8 => 1
  | .INT8 => 1
  | .UINT16 => 2
  | .INT16 => 2
  | .UINT32 => 4
  | .INT32 => 4
  | .UINT64 => 8
  | .INT64 => 8
  | .HALF => 2
  | .FLOAT => 4
  | .DOUBLE => 8
  | .STRING => 8
  | .PTR => 8

/-- Modelled from the spec: `numelements()` is the array length, or 1 for a
descriptor that is not an array. -/
def TypeDesc.numelements (t : TypeDesc) : Nat :=
  if 1 ≤ t.arraylen then t.arraylen.toNat else 1

/-- Modelled from the spec: `size()`, the byte size of a value of the type:
number of elements times aggregate count times the size of the base type. -/
def TypeDesc.size (t : TypeDesc) : Nat :=
  t.numelements * (t.aggregate * t.basetype.basesize)

/-- The descriptor `TypeUnknown`. -/
def TypeUnknown : TypeDesc := { basetype := .UNKNOWN }

/-- Implicit conversion of a base type to a scalar `TypeDesc`. -/
def TypeDesc.ofBase (b : BASETYPE) : TypeDesc := { basetype := b }

/-- The function `python_array_code` (source lines 10-28). -/
def python_array_code (format : TypeDesc) : String :=
  match format.basetype with
  | .UINT8 => "B"
  | .INT8 => "b"
  | .UINT16 => "H"
  | .INT16 => "h"
  | .UINT32 => "I"
  | .INT32 => "i"
  | .FLOAT => "f"
  | .DOUBLE => "d"
  | .HALF => "e"
  | _ => "B"

/-- The function `typedesc_from_python_array_code` (source lines 32-50);
`TypeDesc::INT` and `TypeDesc::UINT` are the 32-bit types. -/
def typedesc_from_python_array_code (code : Char) : TypeDesc :=
  if code = 'b' then TypeDesc.ofBase .INT8
  else if code = 'c' then TypeDesc.ofBase .INT8
  else if code = 'B' then TypeDesc.ofBase .UINT8
  else if code = 'h' then TypeDesc.ofBase .INT16
  else if code = 'H' then TypeDesc.ofBase .UINT16
  else if code = 'i' then TypeDesc.ofBase .INT32
  else if code = 'I' then TypeDesc.ofBase .UINT32
  else if code = 'l' then TypeDesc.ofBase .INT64
  else if code = 'L' then TypeDesc.ofBase .UINT64
  else if code = 'f' then TypeDesc.ofBase .FLOAT
  else if code = 'd' then TypeDesc.ofBase .DOUBLE
  else if code = 'e' then TypeDesc.ofBase .HALF
  else TypeDesc.ofBase .UNKNOWN

/-! ## Buffer descriptors and resolved layouts -/

/-- The fields of `py::buffer_info` that the constructor reads. -/
structure buffer_info where
  ptr : Nat
  itemsize : Int
  size : Int
  format : String
  ndim : Int
  shape : List Int
  strides : List Int
  deriving DecidableEq, Repr

/-- Modelled from the spec: the value `AutoStride` is declared in a header that is
not among the sources.  It is the default that unused strides keep and that asks
the consumer for the contiguous layout; it is taken to be the least value of
`stride_t`. -/
def AutoStride : Int := -9223372036854775808

/-- The record `oiio_bufinfo`. -/
structure oiio_bufinfo where
  format : TypeDesc
  data : Nat
  xstride : Int
  ystride : Int
  zstride : Int
  size : Nat
  error : String
  deriving DecidableEq, Repr

/-- Modelled from the spec: the default member values of `oiio_bufinfo`, declared
in a header that is not among the sources: format Unknown, null data pointer,
the three strides at their default `AutoStride`, size 0, empty error message. -/
def oiio_bufinfo.initial : oiio_bufinfo where
  format := TypeUnknown
  data := 0
  xstride := AutoStride
  ystride := AutoStride
  zstride := AutoStride
  size := 0
  error := ""

/-! ## The constructor `oiio_bufinfo::oiio_bufinfo` -/

/-- The message of the size gate (source lines 70-72). -/
def wrongSizeMessage (depth height width nchans size : Int) : String :=
  "buffer is wrong size (expected " ++ toString depth ++ "x" ++ toString height ++ "x"
    ++ toString width ++ "x" ++ toString nchans ++ ", got total " ++ toString size ++ ")"

/-- The message of the shape errors (source lines 114-116, 124-126, 139-141, 144-146). -/
def shapeMessage (pixeldims ndim : Int) : String :=
  "Can\x27t figure out array shape (pixeldims=" ++ toString pixeldims ++ ", pydim="
    ++ toString ndim ++ ")"

/-- The message of the volumetric shape error (source line 94). -/
def badDimensionsMessage : String := "Bad dimensions of pixel data"

/-- The message of the post-check (source line 151). -/
def noncontiguousMessage : String := "Can\x27t handle numpy array with noncontiguous channels"

/-- Source lines 64-65: the format is decoded from the first character of the
format code, and keeps its value when the code is empty. -/
def decodeFormat (pybuf : buffer_info) (b : oiio_bufinfo) : oiio_bufinfo :=
  match pybuf.format.data with
  | [] => b
  | c :: _ => { b with format := typedesc_from_python_array_code c }

/-- The right-hand side of the element-count test (source line 68):
`int64_t(width) * int64_t(height) * int64_t(depth * nchans)`, the inner product
being computed in `int`. -/
def expectedCount (width height depth nchans : Int) : Int :=
  wrap64 (wrap64 (width * height) * wrap32 (depth * nchans))

/-- Short-circuit evaluation of `shape[i] == e0 && shape[i+1] == e1 && ...`: an
extent is read only when all the comparisons before it held. -/
def extentsMatch (shape : List Int) : Nat → List Int → Option Bool
  | _, [] => some true
  | i, e :: es =>
    match shape[i]? with
    | none => none
    | some v => if v = e then extentsMatch shape (i + 1) es else some false

/-- Short-circuit evaluation of `pybuf.ndim == n && shape[0] == e0 && ...`. -/
def shapeIs (pybuf : buffer_info) (n : Int) (exts : List Int) : Option Bool :=
  if pybuf.ndim = n then extentsMatch pybuf.shape 0 exts else some false

/-- Source lines 76-95, the branch `pixeldims == 3`. -/
def resolveVolume (pybuf : buffer_info) (nchans width height depth : Int)
    (b : oiio_bufinfo) : Option oiio_bufinfo :=
  match shapeIs pybuf 4 [depth, height, width, nchans] with
  | none => none
  | some true =>
    match pybuf.strides[2]?, pybuf.strides[1]?, pybuf.strides[0]? with
    | some s2, some s1, some s0 => some { b with xstride := s2, ystride := s1, zstride := s0 }
    | _, _, _ => none
  | some false =>
    match shapeIs pybuf 3 [depth, height, wrap32 (width * nchans)] with
    | none => none
    | some true =>
      match pybuf.strides[2]?, pybuf.strides[1]?, pybuf.strides[0]? with
      | some s2, some s1, some s0 => some { b with xstride := s2, ystride := s1, zstride := s0 }
      | _, _, _ => none
    | some false => some { b with format := TypeUnknown, error := badDimensionsMessage }

/-- Source lines 96-127, the branch `pixeldims == 2`. -/
def resolveRectangle (pybuf : buffer_info) (nchans width height pixeldims : Int)
    (b : oiio_bufinfo) : Option oiio_bufinfo :=
  match shapeIs pybuf 3 [height, width, nchans] with
  | none => none
  | some true =>
    match pybuf.strides[1]?, pybuf.strides[0]? with
    | some s1, some s0 => some { b with xstride := s1, ystride := s0 }
    | _, _ => none
  | some false =>
    if pybuf.ndim = 2 then
      match extentsMatch pybuf.shape 0 [wrap32 (width * height), nchans] with
      | none => none
      | some true =>
        match pybuf.strides[0]? with
        | some s0 => some { b with xstride := s0 }
        | none => none
      | some false =>
        match extentsMatch pybuf.shape 0 [height, wrap32 (width * nchans)] with
        | none => none
        | some true =>
          match pybuf.strides[0]? with
          | some s0 => some { b with ystride := s0, xstride := wrap64 (s0 * nchans) }
          | none => none
        | some false =>
          some { b with format := TypeUnknown, error := shapeMessage pixeldims pybuf.ndim }
    else
      match shapeIs pybuf 1 [wrap32 (wrap32 (height * width) * nchans)] with
      | none => none
      | some true => some b
      | some false =>
        some { b with format := TypeUnknown, error := shapeMessage pixeldims pybuf.ndim }

/-- Source lines 128-142, the branch `pixeldims == 1`. -/
def resolveSpan (pybuf : buffer_info) (nchans width pixeldims : Int)
    (b : oiio_bufinfo) : Option oiio_bufinfo :=
  match shapeIs pybuf 2 [width, nchans] with
  | none => none
  | some true =>
    match pybuf.strides[0]? with
    | some s0 => some { b with xstride := s0 }
    | none => none
  | some false =>
    match shapeIs pybuf 1 [wrap32 (width * nchans)] with
    | none => none
    | some true =>
      match pybuf.strides[0]? with
      | some s0 => some { b with xstride := wrap64 (s0 * nchans) }
      | none => none
    | some false =>
      some { b with format := TypeUnknown, error := shapeMessage pixeldims pybuf.ndim }

/-- Source lines 76-147: the shape interpretation, by `pixeldims`.  The last
branch sets the error message only. -/
def resolveShape (pybuf : buffer_info) (nchans width height depth pixeldims : Int)
    (b : oiio_bufinfo) : Option oiio_bufinfo :=
  if pixeldims = 3 then resolveVolume pybuf nchans width height depth b
  else if pixeldims = 2 then resolveRectangle pybuf nchans width height pixeldims b
  else if pixeldims = 1 then resolveSpan pybuf nchans width pixeldims b
  else some { b with error := shapeMessage pixeldims pybuf.ndim }

/-- Source lines 149-152: the post-check on the stride of the last axis;
`strides.back()` is read only when `nchans > 1`. -/
def postCheck (pybuf : buffer_info) (nchans : Int) (b : oiio_bufinfo) : Option oiio_bufinfo :=
  if 1 < nchans then
    match pybuf.strides.getLast? with
    | none => none
    | some last =>
      if toSizeT last ≠ b.format.size then
        some { b with format := TypeUnknown, error := noncontiguousMessage }
      else some b
  else some b

/-- Source lines 153-154: the data pointer is copied when the format is known. -/
def assignData (pybuf : buffer_info) (b : oiio_bufinfo) : oiio_bufinfo :=
  if b.format ≠ TypeUnknown then { b with data := pybuf.ptr } else b

/-- The constructor `oiio_bufinfo::oiio_bufinfo` (source lines 61-155). -/
def oiio_bufinfo.oiio_bufinfo (pybuf : buffer_info)
    (nchans width height depth pixeldims : Int) : Option oiio_bufinfo :=
  let b1 := decodeFormat pybuf oiio_bufinfo.initial
  if toSizeT pybuf.itemsize ≠ b1.format.size
      ∨ pybuf.size ≠ expectedCount width height depth nchans then
    some { b1 with
      format := TypeUnknown
      error := wrongSizeMessage depth height width nchans pybuf.size }
  else
    let b2 := { b1 with size := toSizeT pybuf.size }
    match resolveShape pybuf nchans width height depth pixeldims b2 with
    | none => none
    | some b3 =>
      match postCheck pybuf nchans b3 with
      | none => none
      | some b4 => some (assignData pybuf b4)

/-! ## Predicates used to state the properties -/

/-- The format decoded from the first character of the format code of a buffer
descriptor; Unknown when the code is empty. -/
def decodedFormat (pybuf : buffer_info) : TypeDesc :=
  (decodeFormat pybuf oiio_bufinfo.initial).format

/-- The descriptor passes the size gate: neither disjunct of the test of source
lines 66-68 holds. -/
def PassesSizeGate (pybuf : buffer_info) (nchans width height depth : Int) : Prop :=
  toSizeT pybuf.itemsize = (decodedFormat pybuf).size
    ∧ pybuf.size = expectedCount width height depth nchans

/-- The shape of the descriptor is one of the conventions that the shape
interpretation accepts for `pixeldims`; a merged extent such as `width * nchans`
is the `int` product that the source compares the extent with. -/
def RecognisedShape (pybuf : buffer_info) (nchans width height depth pixeldims : Int) : Prop :=
  (pixeldims = 3 ∧ pybuf.ndim = 4 ∧ pybuf.shape = [depth, height, width, nchans])
  ∨ (pixeldims = 3 ∧ pybuf.ndim = 3 ∧ pybuf.shape = [depth, height, wrap32 (width * nchans)])
  ∨ (pixeldims = 2 ∧ pybuf.ndim = 3 ∧ pybuf.shape = [height, width, nchans])
  ∨ (pixeldims = 2 ∧ pybuf.ndim = 2 ∧ pybuf.shape = [wrap32 (width * height), nchans])
  ∨ (pixeldims = 2 ∧ pybuf.ndim = 2 ∧ pybuf.shape = [height, wrap32 (width * nchans)])
  ∨ (pixeldims = 2 ∧ pybuf.ndim = 1
      ∧ pybuf.shape = [wrap32 (wrap32 (height * width) * nchans)])
  ∨ (pixeldims = 1 ∧ pybuf.ndim = 2 ∧ pybuf.shape = [width, nchans])
  ∨ (pixeldims = 1 ∧ pybuf.ndim = 1 ∧ pybuf.shape = [wrap32 (width * nchans)])

instance (pybuf : buffer_info) (nchans width height depth : Int) :
    Decidable (PassesSizeGate pybuf nchans width height depth) := by
  unfold PassesSizeGate; infer_instance

instance (pybuf : buffer_info) (nchans width height depth pixeldims : Int) :
    Decidable (RecognisedShape pybuf nchans width height depth pixeldims) := by
  unfold RecognisedShape; infer_instance

/-- The record as it stands once the size gate is passed (source line 75). -/
def afterGate (pybuf : buffer_info) : oiio_bufinfo :=
  { decodeFormat pybuf oiio_bufinfo.initial with size := toSizeT pybuf.size }

/-- The fields that the shape interpretation leaves alone when it accepts a shape. -/
def headerOf (b : oiio_bufinfo) : TypeDesc × String × Nat × Nat :=
  (b.format, b.error, b.data, b.size)

/-- The shapes that are listed as the conventions accepted for a value of
`pixeldims`, the merged extents being the products themselves. -/
def conventionShapes (pixeldims nchans width height depth : Int) : List (List Int) :=
  if pixeldims = 3 then
    [[depth, height, width, nchans], [depth, height, width * nchans]]
  else if pixeldims = 2 then
    [[height, width, nchans], [height * width, nchans], [height, width * nchans],
      [height * width * nchans]]
  else if pixeldims = 1 then
    [[width, nchans], [width * nchans]]
  else []

/-- Byte strides of the contiguous row-major layout of a shape whose elements
have `s` bytes: the stride of an axis is `s` times the extents of the axes after it. -/
def rowMajorStrides (s : Int) : List Int → List Int
  | [] => []
  | _ :: rest => (s * rest.prod) :: rowMajorStrides s rest

/-- A contiguous row-major buffer of a recognised element format, for a positive
geometry: the format code starts with `code`, which decodes to a known format,
the item size is the size of that format, the element count is
`width * height * depth * nchans`, the shape is one of the conventions listed for
`pixeldims` and the strides are those of the contiguous row-major layout. -/
def IsContiguousConventionBuffer (pybuf : buffer_info) (code : Char)
    (nchans width height depth pixeldims : Int) : Prop :=
  (0 < width ∧ 0 < height ∧ 0 < depth ∧ 0 < nchans)
  ∧ (InRange32 width ∧ InRange32 height ∧ InRange32 depth ∧ InRange32 nchans)
  ∧ typedesc_from_python_array_code code ≠ TypeUnknown
  ∧ pybuf.format.data.head? = some code
  ∧ pybuf.itemsize = ((typedesc_from_python_array_code code).size : Int)
  ∧ pybuf.size = width * height * depth * nchans
  ∧ InRange64 pybuf.size
  ∧ pybuf.shape ∈ conventionShapes pixeldims nchans width height depth
  ∧ pybuf.ndim = (pybuf.shape.length : Int)
  ∧ pybuf.strides = rowMajorStrides pybuf.itemsize pybuf.shape

instance (pybuf : buffer_info) (code : Char) (nchans width height depth pixeldims : Int) :
    Decidable (IsContiguousConventionBuffer pybuf code nchans width height depth pixeldims) := by
  unfold IsContiguousConventionBuffer; infer_instance

/-- The 32-bit products of the source do not overflow on the buffer: `depth * nchans`
and every extent of the shape are representable in an `int`. -/
def ProductsFitInt (pybuf : buffer_info) (nchans depth : Int) : Prop :=
  InRange32 (depth * nchans) ∧ ∀ e ∈ pybuf.shape, InRange32 e

instance (pybuf : buffer_info) (nchans depth : Int) :
    Decidable (ProductsFitInt pybuf nchans depth) := by
  unfold ProductsFitInt; infer_instance

/-- The index tuples of a walk over the buffer. -/
def InBox (width height depth nchans z y x c : Int) : Prop :=
  (0 ≤ z ∧ z < depth) ∧ (0 ≤ y ∧ y < height) ∧ (0 ≤ x ∧ x < width) ∧ (0 ≤ c ∧ c < nchans)

/-- The walk with byte offsets `off` visits every element of a buffer of
`width * height * depth * nchans` elements of `s` bytes exactly once: every offset
is `k * s` for an element index `k` of the buffer, every element index is reached,
and no two index tuples share an offset. -/
def VisitsEachOnce (off : Int → Int → Int → Int → Int)
    (width height depth nchans s : Int) : Prop :=
  (∀ z y x c, InBox width height depth nchans z y x c →
      ∃ k, 0 ≤ k ∧ k < width * height * depth * nchans ∧ off z y x c = k * s)
  ∧ (∀ k, 0 ≤ k → k < width * height * depth * nchans →
      ∃ z y x c, InBox width height depth nchans z y x c ∧ off z y x c = k * s)
  ∧ (∀ z y x c z2 y2 x2 c2, InBox width height depth nchans z y x c →
      InBox width height depth nchans z2 y2 x2 c2 →
      off z y x c = off z2 y2 x2 c2 → z = z2 ∧ y = y2 ∧ x = x2 ∧ c = c2)

/-- The element index of an index tuple in the contiguous row-major layout. -/
def elementIndex (width height nchans z y x c : Int) : Int :=
  ((z * height + y) * width + x) * nchans + c

/-- The buffer over the same memory whose first axis [height * width] is split into
the two axes [height, width]: the stride of the new first axis is `width` times the
stride of the old one. -/
def splitPixelAxis (pybuf : buffer_info) (nchans width height s0 s1 : Int) : buffer_info :=
  { pybuf with ndim := 3, shape := [height, width, nchans], strides := [s0 * width, s0, s1] }

/-- Modelled from the spec: the contiguous defaults that the consumer of a layout
uses for a stride left at `AutoStride`: the x stride is `nchans` elements of the
format, the y stride is `width` x strides. -/
def auto_stride (r : oiio_bufinfo) (nchans width : Int) : oiio_bufinfo :=
  let xs := if r.xstride = AutoStride then nchans * (r.format.size : Int) else r.xstride
  let ys := if r.ystride = AutoStride then xs * width else r.ystride
  { r with xstride := xs, ystride := ys }

/-- Byte offset of the element (z, y, x, c) when the buffer is walked with the
strides of a layout; an axis that the class `pixeldims` does not use contributes 0. -/
def walkOffset (pixeldims : Int) (r : oiio_bufinfo) (z y x c : Int) : Int :=
  (if pixeldims = 3 then z * r.zstride else 0)
    + (if pixeldims = 3 ∨ pixeldims = 2 then y * r.ystride else 0)
    + x * r.xstride + c * (r.format.size : Int)

/-- The listed conventions for which the constructor computes every stride that the
class `pixeldims` uses. -/
def explicitShapes (pixeldims nchans width height depth : Int) : List (List Int) :=
  if pixeldims = 3 then [[depth, height, width, nchans]]
  else if pixeldims = 2 then [[height, width, nchans]]
  else if pixeldims = 1 then [[width, nchans], [width * nchans]]
  else []

/-- The listed conventions for which the constructor leaves a stride that the class
`pixeldims` uses at `AutoStride`. -/
def autoShapes (pixeldims nchans width height : Int) : List (List Int) :=
  if pixeldims = 2 then [[height * width, nchans], [height * width * nchans]]
  else []

/-- The strides of a layout are those of the contiguous row-major layout, as far as
the class `pixeldims` uses them. -/
def StridesRight (pixeldims : Int) (r : oiio_bufinfo) (nchans width height : Int) : Prop :=
  r.xstride = nchans * (r.format.size : Int)
    ∧ (pixeldims ≠ 1 → r.ystride = width * nchans * (r.format.size : Int))
    ∧ (pixeldims = 3 → r.zstride = height * width * nchans * (r.format.size : Int))

/-- The geometry that a class `pixeldims` can address: classes 1, 2, 3, a single
slice for class 2, a single row of a single slice for class 1. -/
def GeometryOfClass (pixeldims height depth : Int) : Prop :=
  (pixeldims = 3) ∨ (pixeldims = 2 ∧ depth = 1) ∨ (pixeldims = 1 ∧ depth = 1 ∧ height = 1)

/-- The nine base types that `python_array_code` maps to a code of their own. -/
def directlyMapped : List BASETYPE :=
  [.UINT8, .INT8, .UINT16, .INT16, .UINT32, .INT32, .FLOAT, .DOUBLE, .HALF]

/-- The codes of the nine directly mapped base types. -/
def directCodes : List Char := ['B', 'b', 'H', 'h', 'I', 'i', 'f', 'd', 'e']

/-- The codes that `typedesc_from_python_array_code` has a case for. -/
def recognisedCodes : List Char :=
  ['b', 'c', 'B', 'h', 'H', 'i', 'I', 'l', 'L', 'f', 'd', 'e']

/-- The message that the shape interpretation of class `pixeldims` reports for a
shape it does not accept (source lines 94, 114-116, 124-126, 139-141). -/
def shapeErrorMessage (pixeldims ndim : Int) : String :=
  if pixeldims = 3 then badDimensionsMessage else shapeMessage pixeldims ndim

/-- The descriptor has one extent and one stride per axis. -/
def OnePerAxis (pybuf : buffer_info) : Prop :=
  (pybuf.shape.length : Int) = pybuf.ndim ∧ (pybuf.strides.length : Int) = pybuf.ndim

instance (pybuf : buffer_info) : Decidable (OnePerAxis pybuf) := by
  unfold OnePerAxis; infer_instance

/-- The contiguous buffer of shape [W, C] of a span of `W` pixels of `C` channels,
with elements of the format of `code`: strides [C * s, s] for the element size `s`. -/
def spanBuffer (ptr : Nat) (code : Char) (W C : Int) : buffer_info where
  ptr := ptr
  itemsize := ((typedesc_from_python_array_code code).size : Int)
  size := W * C
  format := String.singleton code
  ndim := 2
  shape := [W, C]
  strides := [C * ((typedesc_from_python_array_code code).size : Int),
    ((typedesc_from_python_array_code code).size : Int)]

/-- The same memory as the flattened buffer of shape [W * C], with stride [s]. -/
def flatSpanBuffer (ptr : Nat) (code : Char) (W C : Int) : buffer_info where
  ptr := ptr
  itemsize := ((typedesc_from_python_array_code code).size : Int)
  size := W * C
  format := String.singleton code
  ndim := 1
  shape := [W * C]
  strides := [((typedesc_from_python_array_code code).size : Int)]

/-! ## Typed attributes -/

/-- The native array that `oiio_attribute_typed` hands to the attribute store: a
vector of `int`, of `float` or of interned strings. -/
inductive AttributeData (I F U : Type) where
  | ints (vals : List I)
  | floats (vals : List F)
  | ustrings (vals : List U)

/-- The function `oiio_attribute_typed` (source lines 159-189).  The conversions
`py_to_stdvector` of the tuple to a vector of `int`, `float` or string, the
interning `ustring` and the write `OIIO::attribute` of the attribute store are not
among the sources and are parameters; the store is passed in and out as a state,
and `none` stands for taking `&vals[0]` of an empty vector.  `TypeDesc::INT` is the
32-bit type. -/
def oiio_attribute_typed {σ T I F S U : Type}
    (toInts : T → List I) (toFloats : T → List F) (toStrings : T → List S)
    (ustring : S → U)
    (oiio_attribute : σ → String → TypeDesc → AttributeData I F U → Bool × σ)
    (store : σ) (name : String) (type : TypeDesc) (obj : T) : Option (Bool × σ) :=
  if type.basetype = .INT32 then
    let vals := toInts obj
    if vals.length = type.numelements * type.aggregate then
      match vals with
      | [] => none
      | _ :: _ => some (oiio_attribute store name type (.ints vals))
    else some (false, store)
  else if type.basetype = .FLOAT then
    let vals := toFloats obj
    if vals.length = type.numelements * type.aggregate then
      match vals with
      | [] => none
      | _ :: _ => some (oiio_attribute store name type (.floats vals))
    else some (false, store)
  else if type.basetype = .STRING then
    let vals := toStrings obj
    if vals.length = type.numelements * type.aggregate then
      let u := vals.map ustring
      match u with
      | [] => none
      | _ :: _ => some (oiio_attribute store name type (.ustrings u))
    else some (false, store)
  else some (false, store)

/-- The function `oiio_getattribute_typed` (source lines 193-208).  The lookup
`OIIO::getattribute` of the attribute store (here `oiio_getattribute`), which fills the scratch buffer on
success, and the three decoders `C_to_val_or_tuple` are not among the sources and
are parameters.  The result is the returned object, `none` being Python's `None`,
together with the list of the queries made to the store.  A descriptor equals
`TypeDesc::UNKNOWN` when it is the scalar, non-array descriptor of base type
UNKNOWN. -/
def oiio_getattribute_typed {D V : Type}
    (oiio_getattribute : String → TypeDesc → Option D)
    (intVal floatVal stringVal : D → TypeDesc → V)
    (name : String) (type : TypeDesc) : Option V × List (String × TypeDesc) :=
  if type = TypeUnknown then (none, [])
  else
    match oiio_getattribute name type with
    | none => (none, [(name, type)])
    | some data =>
      if type.basetype = .INT32 then (some (intVal data type), [(name, type)])
      else if type.basetype = .FLOAT then (some (floatVal data type), [(name, type)])
      else if type.basetype = .STRING then (some (stringVal data type), [(name, type)])
      else (none, [(name, type)])

/-- The condition under which `oiio_attribute_typed` may forward a write: the base
type is INT, FLOAT or STRING and the number of values converted for that base type
is `numelements() * aggregate`. -/
def WriteForwardable {T I F S : Type}
    (toInts : T → List I) (toFloats : T → List F) (toStrings : T → List S)
    (type : TypeDesc) (obj : T) : Prop :=
  (type.basetype = .INT32 ∧ (toInts obj).length = type.numelements * type.aggregate)
  ∨ (type.basetype = .FLOAT ∧ (toFloats obj).length = type.numelements * type.aggregate)
  ∨ (type.basetype = .STRING ∧ (toStrings obj).length = type.numelements * type.aggregate)

instance {T I F S : Type} (toInts : T → List I) (toFloats : T → List F)
    (toStrings : T → List S) (type : TypeDesc) (obj : T) :
    Decidable (WriteForwardable toInts toFloats toStrings type obj) := by
  unfold WriteForwardable; infer_instance

/-! ## Auxiliary facts -/

theorem decodedFormat_cases (pybuf : buffer_info) :
    decodedFormat pybuf = TypeUnknown
      ∨ ∃ c, decodedFormat pybuf = typedesc_from_python_array_code c := by
  unfold decodedFormat decodeFormat
  split
  · left; rfl
  · right; exact ⟨_, rfl⟩

theorem TypeDesc.size_ofBase (b : BASETYPE) : (TypeDesc.ofBase b).size = b.basesize := by
  simp [TypeDesc.size, TypeDesc.ofBase, TypeDesc.numelements]

theorem ite_ofBase (p : Prop) [Decidable p] (b : BASETYPE) (x : TypeDesc)
    (h : ∃ b2, x = TypeDesc.ofBase b2) :
    ∃ b2, (if p then TypeDesc.ofBase b else x) = TypeDesc.ofBase b2 := by
  by_cases hp : p
  · exact ⟨b, if_pos hp⟩
  · rw [if_neg hp]; exact h

theorem typedesc_from_python_array_code_scalar (c : Char) :
    ∃ b, typedesc_from_python_array_code c = TypeDesc.ofBase b := by
  unfold typedesc_from_python_array_code
  repeat apply ite_ofBase
  exact ⟨_, rfl⟩

theorem typedesc_from_python_array_code_size_le (c : Char) :
    (typedesc_from_python_array_code c).size ≤ 8 := by
  obtain ⟨b, hb⟩ := typedesc_from_python_array_code_scalar c
  rw [hb, TypeDesc.size_ofBase]
  cases b <;> decide

theorem decodedFormat_size_le (pybuf : buffer_info) : (decodedFormat pybuf).size ≤ 8 := by
  rcases decodedFormat_cases pybuf with h | ⟨c, h⟩
  · rw [h]; decide
  · rw [h]; exact typedesc_from_python_array_code_size_le c

theorem toSizeT_eq_iff (x : Int) (n : Nat) (hx : InRange64 x) (hn : n ≤ 8) :
    toSizeT x = n ↔ x = (n : Int) := by
  unfold InRange64 at hx
  unfold toSizeT
  constructor
  · intro h
    have h2 : ((x % 18446744073709551616).toNat : Int) = (n : Int) := by rw [h]
    omega
  · intro h
    subst h
    omega

theorem wrongSizeMessage_ne_empty (d h w c n : Int) : wrongSizeMessage d h w c n ≠ "" := by
  intro he
  have hl := congrArg String.length he
  simp only [wrongSizeMessage, String.length_append] at hl
  have h1 : 0 < ")".length := by decide
  have h2 : "".length = 0 := by decide
  omega

theorem shapeMessage_ne_empty (p n : Int) : shapeMessage p n ≠ "" := by
  intro he
  have hl := congrArg String.length he
  simp only [shapeMessage, String.length_append] at hl
  have h1 : 0 < ")".length := by decide
  have h2 : "".length = 0 := by decide
  omega

theorem decodeFormat_fields (pybuf : buffer_info) (b : oiio_bufinfo) :
    (decodeFormat pybuf b).data = b.data ∧ (decodeFormat pybuf b).error = b.error
      ∧ (decodeFormat pybuf b).xstride = b.xstride ∧ (decodeFormat pybuf b).ystride = b.ystride
      ∧ (decodeFormat pybuf b).zstride = b.zstride ∧ (decodeFormat pybuf b).size = b.size := by
  unfold decodeFormat
  split <;> simp

theorem afterGate_format (pybuf : buffer_info) : (afterGate pybuf).format = decodedFormat pybuf :=
  rfl

theorem afterGate_data (pybuf : buffer_info) : (afterGate pybuf).data = 0 :=
  (decodeFormat_fields pybuf oiio_bufinfo.initial).1

theorem afterGate_error (pybuf : buffer_info) : (afterGate pybuf).error = "" :=
  (decodeFormat_fields pybuf oiio_bufinfo.initial).2.1

theorem afterGate_xstride (pybuf : buffer_info) : (afterGate pybuf).xstride = AutoStride :=
  (decodeFormat_fields pybuf oiio_bufinfo.initial).2.2.1

theorem afterGate_ystride (pybuf : buffer_info) : (afterGate pybuf).ystride = AutoStride :=
  (decodeFormat_fields pybuf oiio_bufinfo.initial).2.2.2.1

theorem afterGate_zstride (pybuf : buffer_info) : (afterGate pybuf).zstride = AutoStride :=
  (decodeFormat_fields pybuf oiio_bufinfo.initial).2.2.2.2.1

theorem afterGate_size (pybuf : buffer_info) : (afterGate pybuf).size = toSizeT pybuf.size :=
  rfl

/-- Once the size gate is passed, the constructor is the shape interpretation
followed by the post-check and the assignment of the data pointer. -/
theorem constructor_of_gate (pybuf : buffer_info) (nchans width height depth pixeldims : Int)
    (hgate : PassesSizeGate pybuf nchans width height depth) :
    oiio_bufinfo.oiio_bufinfo pybuf nchans width height depth pixeldims
      = (resolveShape pybuf nchans width height depth pixeldims (afterGate pybuf)).bind
          (fun b3 => (postCheck pybuf nchans b3).map (assignData pybuf)) := by
  obtain ⟨h1, h2⟩ := hgate
  have hc : ¬ (toSizeT pybuf.itemsize ≠ (decodeFormat pybuf oiio_bufinfo.initial).format.size
      ∨ pybuf.size ≠ expectedCount width height depth nchans) := by
    rintro (h | h)
    · exact h h1
    · exact h h2
  unfold oiio_bufinfo.oiio_bufinfo
  simp only []
  rw [if_neg hc]
  unfold afterGate
  cases resolveShape pybuf nchans width height depth pixeldims
      { decodeFormat pybuf oiio_bufinfo.initial with size := toSizeT pybuf.size } with
  | none => rfl
  | some b3 =>
    simp only [Option.bind]
    cases postCheck pybuf nchans b3 <;> rfl

theorem resolveShape_of_recognised (pybuf : buffer_info)
    (nchans width height depth pixeldims : Int) (b : oiio_bufinfo)
    (hshape : RecognisedShape pybuf nchans width height depth pixeldims)
    (hstr : pybuf.strides.length = pybuf.shape.length) :
    (resolveShape pybuf nchans width height depth pixeldims b).map headerOf
      = some (headerOf b) := by
  obtain ⟨pt, isz, sz, fmt, nd, shape, strides⟩ := pybuf
  simp only at hstr
  unfold RecognisedShape at hshape
  simp only at hshape
  rcases hshape with ⟨hp, hn, hs⟩ | ⟨hp, hn, hs⟩ | ⟨hp, hn, hs⟩ | ⟨hp, hn, hs⟩ | ⟨hp, hn, hs⟩
    | ⟨hp, hn, hs⟩ | ⟨hp, hn, hs⟩ | ⟨hp, hn, hs⟩
  all_goals
    subst hp hn hs
    rcases strides with _ | ⟨s0, _ | ⟨s1, _ | ⟨s2, _ | ⟨s3, _ | ⟨s4, t⟩⟩⟩⟩⟩ <;>
      simp at hstr
  all_goals
    simp [resolveShape, resolveVolume, resolveRectangle, resolveSpan, shapeIs, extentsMatch,
        headerOf]
  all_goals split_ifs <;> simp

theorem resolveShape_of_recognised_fields (pybuf : buffer_info)
    (nchans width height depth pixeldims : Int) (b : oiio_bufinfo)
    (hshape : RecognisedShape pybuf nchans width height depth pixeldims)
    (hstr : pybuf.strides.length = pybuf.shape.length) :
    ∃ c, resolveShape pybuf nchans width height depth pixeldims b = some c
      ∧ c.format = b.format ∧ c.error = b.error ∧ c.data = b.data ∧ c.size = b.size := by
  have h := resolveShape_of_recognised pybuf nchans width height depth pixeldims b hshape hstr
  cases hc : resolveShape pybuf nchans width height depth pixeldims b with
  | none => rw [hc] at h; simp at h
  | some c =>
    rw [hc] at h
    simp only [Option.map_some', Option.some.injEq, headerOf, Prod.mk.injEq] at h
    exact ⟨c, rfl, h.1, h.2.1, h.2.2.1, h.2.2.2⟩

theorem wrap32_of_inRange (x : Int) (h : InRange32 x) : wrap32 x = x := by
  unfold InRange32 at h
  unfold wrap32
  omega

theorem wrap64_of_inRange (x : Int) (h : InRange64 x) : wrap64 x = x := by
  unfold InRange64 at h
  unfold wrap64
  omega

theorem inRange64_mul (a b : Int) (ha : InRange32 a) (hb : InRange32 b) : InRange64 (a * b) := by
  unfold InRange32 at ha hb
  unfold InRange64
  obtain ⟨ha1, ha2⟩ := ha
  obtain ⟨hb1, hb2⟩ := hb
  constructor
  · nlinarith [mul_nonneg (sub_nonneg.2 ha1) (sub_nonneg.2 hb1),
      mul_nonneg (sub_nonneg.2 ha2.le) (sub_nonneg.2 hb2.le)]
  · nlinarith [mul_nonneg (sub_nonneg.2 ha1) (sub_nonneg.2 hb2.le),
      mul_nonneg (sub_nonneg.2 ha2.le) (sub_nonneg.2 hb1)]

/-- When `depth * nchans` fits in an `int` and the whole product fits in 64 bits,
the size gate rejects every descriptor whose element count is not
`width * height * depth * nchans`. -/
theorem element_count_mismatch_rejected_of_fit (pybuf : buffer_info)
    (nchans width height depth pixeldims : Int)
    (hw : InRange32 width) (hh : InRange32 height)
    (hdc : InRange32 (depth * nchans))
    (hall : InRange64 (width * height * depth * nchans))
    (hne : pybuf.size ≠ width * height * depth * nchans) :
    ∃ r, oiio_bufinfo.oiio_bufinfo pybuf nchans width height depth pixeldims = some r
      ∧ r.format = TypeUnknown
      ∧ r.error = wrongSizeMessage depth height width nchans pybuf.size := by
  have he : expectedCount width height depth nchans = width * height * depth * nchans := by
    unfold expectedCount
    rw [wrap32_of_inRange _ hdc, wrap64_of_inRange _ (inRange64_mul _ _ hw hh)]
    have : width * height * (depth * nchans) = width * height * depth * nchans := by ring
    rw [this, wrap64_of_inRange _ hall]
  refine ⟨{ decodeFormat pybuf oiio_bufinfo.initial with
      format := TypeUnknown
      error := wrongSizeMessage depth height width nchans pybuf.size }, ?_, rfl, rfl⟩
  unfold oiio_bufinfo.oiio_bufinfo
  rw [← he] at hne
  simp only [hne, ne_eq, not_false_eq_true, or_true, if_true]

theorem inRange64_mul_of_pos (a b : Int) (ha : 0 < a) (hb : 0 < b) (ha2 : InRange32 a)
    (hb2 : InRange32 b) : InRange64 (a * b) := by
  unfold InRange32 at ha2 hb2
  unfold InRange64
  have h1 : 0 < a * b := Int.mul_pos ha hb
  have h2 : a * b ≤ 2147483648 * 2147483648 :=
    Int.mul_le_mul (by omega) (by omega) (by omega) (by omega)
  constructor <;> omega

theorem assignData_fields (pybuf : buffer_info) (b : oiio_bufinfo) :
    (assignData pybuf b).format = b.format ∧ (assignData pybuf b).error = b.error
      ∧ (assignData pybuf b).xstride = b.xstride ∧ (assignData pybuf b).ystride = b.ystride
      ∧ (assignData pybuf b).zstride = b.zstride ∧ (assignData pybuf b).size = b.size
      ∧ (assignData pybuf b).data = if b.format = TypeUnknown then b.data else pybuf.ptr := by
  unfold assignData
  by_cases h : b.format = TypeUnknown <;> simp [h]

/-- A buffer that passes the size gate, has a recognised shape with one stride per
axis and, when there are several channels, a last stride equal to the element size,
is resolved: the constructor returns the record of the shape interpretation with
the data pointer assigned. -/
theorem constructor_of_recognised (pybuf : buffer_info)
    (nchans width height depth pixeldims : Int)
    (hgate : PassesSizeGate pybuf nchans width height depth)
    (hshape : RecognisedShape pybuf nchans width height depth pixeldims)
    (hstr : pybuf.strides.length = pybuf.shape.length)
    (hpost : 1 < nchans →
      ∃ last, pybuf.strides.getLast? = some last ∧ toSizeT last = (decodedFormat pybuf).size) :
    ∃ c, resolveShape pybuf nchans width height depth pixeldims (afterGate pybuf) = some c
      ∧ oiio_bufinfo.oiio_bufinfo pybuf nchans width height depth pixeldims
          = some (assignData pybuf c)
      ∧ c.format = decodedFormat pybuf ∧ c.error = "" ∧ c.data = 0
      ∧ c.size = toSizeT pybuf.size := by
  obtain ⟨c, hc, hf, he, hd, hs⟩ := resolveShape_of_recognised_fields pybuf nchans width height
    depth pixeldims (afterGate pybuf) hshape hstr
  refine ⟨c, hc, ?_, by rw [hf, afterGate_format], by rw [he, afterGate_error],
    by rw [hd, afterGate_data], by rw [hs, afterGate_size]⟩
  rw [constructor_of_gate pybuf nchans width height depth pixeldims hgate, hc]
  simp only [Option.some_bind]
  have hp : postCheck pybuf nchans c = some c := by
    unfold postCheck
    by_cases hn : 1 < nchans
    · obtain ⟨last, hl, hsz⟩ := hpost hn
      have hsz2 : toSizeT last = c.format.size := by rw [hf, afterGate_format]; exact hsz
      simp only [if_pos hn, hl, ne_eq, hsz2, not_true_eq_false, if_false]
    · rw [if_neg hn]
  rw [hp]
  rfl

theorem decodedFormat_of_head (pybuf : buffer_info) (code : Char)
    (h : pybuf.format.data.head? = some code) :
    decodedFormat pybuf = typedesc_from_python_array_code code := by
  unfold decodedFormat decodeFormat
  cases hd : pybuf.format.data with
  | nil => rw [hd] at h; simp at h
  | cons c rest =>
    rw [hd] at h
    simp only [List.head?_cons, Option.some.injEq] at h
    subst h
    rfl

theorem rowMajorStrides_length (s : Int) (shape : List Int) :
    (rowMajorStrides s shape).length = shape.length := by
  induction shape with
  | nil => rfl
  | cons e rest ih => simp [rowMajorStrides, ih]

theorem rowMajorStrides_getLast (s : Int) (shape : List Int) (h : shape ≠ []) :
    (rowMajorStrides s shape).getLast? = some s := by
  induction shape with
  | nil => exact absurd rfl h
  | cons e rest ih =>
    cases rest with
    | nil => simp [rowMajorStrides]
    | cons e2 rest2 =>
      have := ih (by simp)
      simp only [rowMajorStrides] at this ⊢
      rw [List.getLast?_cons_cons]
      exact this

theorem expectedCount_of_fit (nchans width height depth size : Int)
    (hw : 0 < width) (hh : 0 < height)
    (hw2 : InRange32 width) (hh2 : InRange32 height)
    (hdc : InRange32 (depth * nchans))
    (hsize : size = width * height * depth * nchans) (hr : InRange64 size) :
    expectedCount width height depth nchans = size := by
  unfold expectedCount
  rw [wrap32_of_inRange _ hdc, wrap64_of_inRange _ (inRange64_mul_of_pos _ _ hw hh hw2 hh2)]
  have : width * height * (depth * nchans) = size := by rw [hsize]; ring
  rw [this, wrap64_of_inRange _ hr]

theorem conventionShapes_recognised (pybuf : buffer_info)
    (nchans width height depth pixeldims : Int)
    (hpos : 0 < width ∧ 0 < height ∧ 0 < depth ∧ 0 < nchans)
    (hmem : pybuf.shape ∈ conventionShapes pixeldims nchans width height depth)
    (hnd : pybuf.ndim = (pybuf.shape.length : Int))
    (hfit : ∀ e ∈ pybuf.shape, InRange32 e) :
    RecognisedShape pybuf nchans width height depth pixeldims ∧ pybuf.shape ≠ [] := by
  obtain ⟨pt, isz, sz, fmt, nd, shape, strides⟩ := pybuf
  obtain ⟨hw, hh, hd, hc⟩ := hpos
  simp only at hmem hnd hfit
  unfold RecognisedShape
  simp only
  unfold conventionShapes at hmem
  split_ifs at hmem with h3 h2 h1
  · simp only [List.mem_cons, List.mem_singleton, List.not_mem_nil, or_false] at hmem
    rcases hmem with hs | hs
    · subst hs
      simp at hnd
      simp [h3, hnd]
    · subst hs
      simp at hnd
      have := hfit (width * nchans) (by simp)
      simp [h3, hnd, wrap32_of_inRange _ this]
  · simp only [List.mem_cons, List.mem_singleton, List.not_mem_nil, or_false] at hmem
    rcases hmem with hs | hs | hs | hs
    · subst hs
      simp at hnd
      simp [h2, hnd]
    · subst hs
      simp at hnd
      have := hfit (height * width) (by simp)
      rw [mul_comm] at this
      simp [h2, hnd, wrap32_of_inRange _ this, mul_comm]
    · subst hs
      simp at hnd
      have := hfit (width * nchans) (by simp)
      simp [h2, hnd, wrap32_of_inRange _ this]
    · subst hs
      simp at hnd
      have h := hfit (height * width * nchans) (by simp)
      have hhw : InRange32 (height * width) := by
        unfold InRange32 at h ⊢
        have h1 : 0 < height * width := Int.mul_pos hh hw
        have h2 : height * width * 1 ≤ height * width * nchans :=
          Int.mul_le_mul_of_nonneg_left (by omega) (by omega)
        constructor <;> omega
      simp [h2, hnd, wrap32_of_inRange _ hhw, wrap32_of_inRange _ h]
  · simp only [List.mem_cons, List.mem_singleton, List.not_mem_nil, or_false] at hmem
    rcases hmem with hs | hs
    · subst hs
      simp at hnd
      simp [h1, hnd]
    · subst hs
      simp at hnd
      have := hfit (width * nchans) (by simp)
      simp [h1, hnd, wrap32_of_inRange _ this]
  · simp at hmem

/-- A contiguous buffer shaped per a listed convention, whose 32-bit products fit,
meets the hypotheses of `constructor_of_recognised`. -/
theorem contiguous_buffer_recognised (pybuf : buffer_info) (code : Char)
    (nchans width height depth pixeldims : Int)
    (hbuf : IsContiguousConventionBuffer pybuf code nchans width height depth pixeldims)
    (hfit : ProductsFitInt pybuf nchans depth) :
    decodedFormat pybuf = typedesc_from_python_array_code code
      ∧ PassesSizeGate pybuf nchans width height depth
      ∧ RecognisedShape pybuf nchans width height depth pixeldims
      ∧ pybuf.strides.length = pybuf.shape.length
      ∧ pybuf.strides.getLast? = some pybuf.itemsize
      ∧ toSizeT pybuf.itemsize = (decodedFormat pybuf).size := by
  obtain ⟨hpos, ⟨hw2, hh2, _, _⟩, _, hhead, hitem, hsize, hsr, hmem, hnd, hstrides⟩ := hbuf
  obtain ⟨hdc, hext⟩ := hfit
  have hdec := decodedFormat_of_head pybuf code hhead
  obtain ⟨hrec, hne⟩ := conventionShapes_recognised pybuf nchans width height depth pixeldims
    hpos hmem hnd hext
  have hsz : toSizeT pybuf.itemsize = (decodedFormat pybuf).size := by
    rw [hdec, hitem]
    unfold toSizeT
    have := typedesc_from_python_array_code_size_le code
    omega
  refine ⟨hdec, ⟨hsz, ?_⟩, hrec, ?_, ?_, hsz⟩
  · exact (expectedCount_of_fit nchans width height depth pybuf.size hpos.1 hpos.2.1 hw2 hh2
      hdc hsize hsr).symm
  · rw [hstrides, rowMajorStrides_length]
  · rw [hstrides, rowMajorStrides_getLast _ _ hne]

theorem postCheck_pass (pybuf : buffer_info) (nchans : Int) (c : oiio_bufinfo)
    (hpost : 1 < nchans →
      ∃ last, pybuf.strides.getLast? = some last ∧ toSizeT last = c.format.size) :
    postCheck pybuf nchans c = some c := by
  unfold postCheck
  by_cases hn : 1 < nchans
  · obtain ⟨last, hl, hsz⟩ := hpost hn
    simp only [if_pos hn, hl, ne_eq, hsz, not_true_eq_false, if_false]
  · rw [if_neg hn]

theorem postCheck_strides (pybuf : buffer_info) (nchans : Int) (c : oiio_bufinfo)
    (hne : pybuf.strides ≠ []) :
    ∃ r, postCheck pybuf nchans c = some r ∧ r.xstride = c.xstride ∧ r.ystride = c.ystride
      ∧ r.zstride = c.zstride := by
  unfold postCheck
  cases hl : pybuf.strides.getLast? with
  | none => rw [List.getLast?_eq_none_iff] at hl; exact absurd hl hne
  | some last =>
    by_cases hn : 1 < nchans
    · by_cases hsz : toSizeT last = c.format.size
      · simp [hn, hsz]
      · simp [hn, hsz]
    · simp [hn]

theorem constructor_of_resolved (pybuf : buffer_info)
    (nchans width height depth pixeldims : Int) (c : oiio_bufinfo)
    (hgate : PassesSizeGate pybuf nchans width height depth)
    (hres : resolveShape pybuf nchans width height depth pixeldims (afterGate pybuf) = some c)
    (hpost : postCheck pybuf nchans c = some c) :
    oiio_bufinfo.oiio_bufinfo pybuf nchans width height depth pixeldims
      = some (assignData pybuf c) := by
  rw [constructor_of_gate pybuf nchans width height depth pixeldims hgate, hres]
  simp only [Option.some_bind, hpost, Option.map_some']

theorem resolveShape_dhwc (pybuf : buffer_info) (nchans width height depth s0 s1 s2 s3 : Int)
    (b : oiio_bufinfo) (hnd : pybuf.ndim = 4)
    (hshape : pybuf.shape = [depth, height, width, nchans])
    (hstr : pybuf.strides = [s0, s1, s2, s3]) :
    resolveShape pybuf nchans width height depth 3 b
      = some { b with xstride := s2, ystride := s1, zstride := s0 } := by
  obtain ⟨pt, isz, sz, fmt, nd, shape, strides⟩ := pybuf
  simp only at hnd hshape hstr
  subst hnd hshape hstr
  simp [resolveShape, resolveVolume, shapeIs, extentsMatch]

theorem resolveShape_hwc (pybuf : buffer_info) (nchans width height depth s0 s1 s2 : Int)
    (b : oiio_bufinfo) (hnd : pybuf.ndim = 3)
    (hshape : pybuf.shape = [height, width, nchans])
    (hstr : pybuf.strides = [s0, s1, s2]) :
    resolveShape pybuf nchans width height depth 2 b
      = some { b with xstride := s1, ystride := s0 } := by
  obtain ⟨pt, isz, sz, fmt, nd, shape, strides⟩ := pybuf
  simp only at hnd hshape hstr
  subst hnd hshape hstr
  simp [resolveShape, resolveRectangle, shapeIs, extentsMatch]

theorem resolveShape_pixels_chans (pybuf : buffer_info)
    (nchans width height depth s0 s1 : Int)
    (b : oiio_bufinfo) (hnd : pybuf.ndim = 2)
    (hshape : pybuf.shape = [wrap32 (width * height), nchans])
    (hstr : pybuf.strides = [s0, s1]) :
    resolveShape pybuf nchans width height depth 2 b = some { b with xstride := s0 } := by
  obtain ⟨pt, isz, sz, fmt, nd, shape, strides⟩ := pybuf
  simp only at hnd hshape hstr
  subst hnd hshape hstr
  simp [resolveShape, resolveRectangle, shapeIs, extentsMatch]

theorem resolveShape_rows (pybuf : buffer_info)
    (nchans width height depth s0 s1 : Int)
    (b : oiio_bufinfo) (hnd : pybuf.ndim = 2)
    (hshape : pybuf.shape = [height, wrap32 (width * nchans)])
    (hfirst : ¬ (height = wrap32 (width * height) ∧ wrap32 (width * nchans) = nchans))
    (hstr : pybuf.strides = [s0, s1]) :
    resolveShape pybuf nchans width height depth 2 b
      = some { b with ystride := s0, xstride := wrap64 (s0 * nchans) } := by
  obtain ⟨pt, isz, sz, fmt, nd, shape, strides⟩ := pybuf
  simp only at hnd hshape hstr
  subst hnd hshape hstr
  simp only [not_and] at hfirst
  simp [resolveShape, resolveRectangle, shapeIs, extentsMatch]
  split_ifs with h1 h2
  · exact absurd h2 (hfirst h1)
  · rfl
  · rfl

theorem resolveShape_flat_rectangle (pybuf : buffer_info)
    (nchans width height depth s0 : Int)
    (b : oiio_bufinfo) (hnd : pybuf.ndim = 1)
    (hshape : pybuf.shape = [wrap32 (wrap32 (height * width) * nchans)])
    (hstr : pybuf.strides = [s0]) :
    resolveShape pybuf nchans width height depth 2 b = some b := by
  obtain ⟨pt, isz, sz, fmt, nd, shape, strides⟩ := pybuf
  simp only at hnd hshape hstr
  subst hnd hshape hstr
  simp [resolveShape, resolveRectangle, shapeIs, extentsMatch]

theorem resolveShape_wc (pybuf : buffer_info) (nchans width height depth s0 s1 : Int)
    (b : oiio_bufinfo) (hnd : pybuf.ndim = 2)
    (hshape : pybuf.shape = [width, nchans])
    (hstr : pybuf.strides = [s0, s1]) :
    resolveShape pybuf nchans width height depth 1 b = some { b with xstride := s0 } := by
  obtain ⟨pt, isz, sz, fmt, nd, shape, strides⟩ := pybuf
  simp only at hnd hshape hstr
  subst hnd hshape hstr
  simp [resolveShape, resolveSpan, shapeIs, extentsMatch]

theorem resolveShape_flat_span (pybuf : buffer_info) (nchans width height depth s0 : Int)
    (b : oiio_bufinfo) (hnd : pybuf.ndim = 1)
    (hshape : pybuf.shape = [wrap32 (width * nchans)])
    (hstr : pybuf.strides = [s0]) :
    resolveShape pybuf nchans width height depth 1 b
      = some { b with xstride := wrap64 (s0 * nchans) } := by
  obtain ⟨pt, isz, sz, fmt, nd, shape, strides⟩ := pybuf
  simp only at hnd hshape hstr
  subst hnd hshape hstr
  simp [resolveShape, resolveSpan, shapeIs, extentsMatch]

theorem toSizeT_natCast (n : Nat) (hn : n ≤ 8) : toSizeT (n : Int) = n := by
  unfold toSizeT
  omega

/-- For `pixeldims = 2`, a buffer that passes the size gate, has the three axes
[height, width, nchans] and, when there are several channels, a last-axis stride
equal to the element size, is resolved to the record of the size gate with xstride
and ystride set from axes 1 and 0 and the data pointer assigned. -/
theorem constructor_of_three_axes (pybuf : buffer_info)
    (nchans width height depth s0 s1 s2 : Int)
    (hgate : PassesSizeGate pybuf nchans width height depth)
    (hnd : pybuf.ndim = 3)
    (hshape : pybuf.shape = [height, width, nchans])
    (hstr : pybuf.strides = [s0, s1, s2])
    (hlast : 1 < nchans → s2 = ((decodedFormat pybuf).size : Int)) :
    oiio_bufinfo.oiio_bufinfo pybuf nchans width height depth 2
      = some (assignData pybuf { afterGate pybuf with xstride := s1, ystride := s0 }) := by
  have hres := resolveShape_hwc pybuf nchans width height depth s0 s1 s2 (afterGate pybuf)
    hnd hshape hstr
  have hpost : postCheck pybuf nchans { afterGate pybuf with xstride := s1, ystride := s0 }
      = some { afterGate pybuf with xstride := s1, ystride := s0 } := by
    apply postCheck_pass
    intro hn
    refine ⟨s2, by rw [hstr]; rfl, ?_⟩
    show toSizeT s2 = (decodedFormat pybuf).size
    rw [hlast hn]
    exact toSizeT_natCast _ (decodedFormat_size_le pybuf)
  exact constructor_of_resolved pybuf nchans width height depth 2 _ hgate hres hpost

theorem radix_bound (a b A B : Int) (ha : 0 ≤ a) (haA : a < A) (hb : 0 ≤ b) (hbB : b < B) :
    0 ≤ a * B + b ∧ a * B + b < A * B := by
  have hB : 0 ≤ B := by omega
  have h1 : 0 ≤ a * B := Int.mul_nonneg ha hB
  have h2 : (a + 1) * B ≤ A * B := Int.mul_le_mul_of_nonneg_right (by omega) hB
  have h3 : (a + 1) * B = a * B + B := by ring
  constructor <;> omega

theorem radix_inj (a b a2 b2 B : Int) (hb : 0 ≤ b) (hbB : b < B) (hb2 : 0 ≤ b2)
    (hb2B : b2 < B) (h : a * B + b = a2 * B + b2) : a = a2 ∧ b = b2 := by
  have hB : 0 ≤ B := by omega
  rcases lt_trichotomy a a2 with hlt | heq | hgt
  · exfalso
    have h2 : (a + 1) * B ≤ a2 * B := Int.mul_le_mul_of_nonneg_right (by omega) hB
    have h3 : (a + 1) * B = a * B + B := by ring
    omega
  · subst heq
    exact ⟨rfl, by omega⟩
  · exfalso
    have h2 : (a2 + 1) * B ≤ a * B := Int.mul_le_mul_of_nonneg_right (by omega) hB
    have h3 : (a2 + 1) * B = a2 * B + B := by ring
    omega

theorem radix_split (k A B : Int) (hB : 0 < B) (hk : 0 ≤ k) (hkAB : k < A * B) :
    ∃ a b, (0 ≤ a ∧ a < A) ∧ (0 ≤ b ∧ b < B) ∧ k = a * B + b := by
  refine ⟨k / B, k % B, ⟨Int.ediv_nonneg hk (by omega), ?_⟩,
    ⟨Int.emod_nonneg _ (by omega), Int.emod_lt_of_pos _ hB⟩, ?_⟩
  · exact Int.ediv_lt_of_lt_mul hB hkAB
  · have := Int.ediv_add_emod k B
    rw [mul_comm] at this
    exact this.symm

theorem elementIndex_visits (width height depth nchans s : Int)
    (hw : 0 < width) (hh : 0 < height) (hc : 0 < nchans) (hs : 0 < s) :
    VisitsEachOnce (fun z y x c => elementIndex width height nchans z y x c * s)
      width height depth nchans s := by
  have hN : width * height * depth * nchans = depth * height * width * nchans := by ring
  refine ⟨?_, ?_, ?_⟩
  · rintro z y x c ⟨⟨hz, hzd⟩, ⟨hy, hyh⟩, ⟨hx, hxw⟩, ⟨hc0, hcc⟩⟩
    obtain ⟨h1, h2⟩ := radix_bound z y depth height hz hzd hy hyh
    obtain ⟨h3, h4⟩ := radix_bound _ x _ width h1 h2 hx hxw
    obtain ⟨h5, h6⟩ := radix_bound _ c _ nchans h3 h4 hc0 hcc
    refine ⟨elementIndex width height nchans z y x c, h5, ?_, rfl⟩
    rw [hN]
    exact h6
  · intro k hk hkN
    rw [hN] at hkN
    obtain ⟨q1, c, ⟨hq1, hq1lt⟩, hcb, e1⟩ := radix_split k _ nchans hc hk hkN
    obtain ⟨q2, x, ⟨hq2, hq2lt⟩, hxb, e2⟩ := radix_split q1 _ width hw hq1 hq1lt
    obtain ⟨z, y, hzb, hyb, e3⟩ := radix_split q2 _ height hh hq2 hq2lt
    refine ⟨z, y, x, c, ⟨hzb, hyb, hxb, hcb⟩, ?_⟩
    show elementIndex width height nchans z y x c * s = k * s
    unfold elementIndex
    rw [e1, e2, e3]
  · rintro z y x c z2 y2 x2 c2 ⟨_, ⟨hy, hyh⟩, ⟨hx, hxw⟩, ⟨hc0, hcc⟩⟩
      ⟨_, ⟨hy2, hyh2⟩, ⟨hx2, hxw2⟩, ⟨hc2, hcc2⟩⟩ heq
    have hk : elementIndex width height nchans z y x c
        = elementIndex width height nchans z2 y2 x2 c2 :=
      Int.eq_of_mul_eq_mul_right (by omega) heq
    unfold elementIndex at hk
    obtain ⟨e1, ec⟩ := radix_inj _ c _ c2 nchans hc0 hcc hc2 hcc2 hk
    obtain ⟨e2, ex⟩ := radix_inj _ x _ x2 width hx hxw hx2 hxw2 e1
    obtain ⟨ez, ey⟩ := radix_inj z y z2 y2 height hy hyh hy2 hyh2 e2
    exact ⟨ez, ey, ex, ec⟩

theorem VisitsEachOnce_congr (off off2 : Int → Int → Int → Int → Int)
    (width height depth nchans s : Int)
    (hagree : ∀ z y x c, InBox width height depth nchans z y x c → off z y x c = off2 z y x c)
    (h : VisitsEachOnce off2 width height depth nchans s) :
    VisitsEachOnce off width height depth nchans s := by
  obtain ⟨h1, h2, h3⟩ := h
  refine ⟨?_, ?_, ?_⟩
  · intro z y x c hb
    rw [hagree z y x c hb]
    exact h1 z y x c hb
  · intro k hk hkN
    obtain ⟨z, y, x, c, hb, e⟩ := h2 k hk hkN
    exact ⟨z, y, x, c, hb, by rw [hagree z y x c hb]; exact e⟩
  · intro z y x c z2 y2 x2 c2 hb hb2 e
    rw [hagree z y x c hb, hagree z2 y2 x2 c2 hb2] at e
    exact h3 z y x c z2 y2 x2 c2 hb hb2 e

theorem walk_of_stridesRight (pixeldims : Int) (r : oiio_bufinfo)
    (nchans width height depth : Int)
    (hw : 0 < width) (hh : 0 < height) (hc : 0 < nchans) (hs : 0 < r.format.size)
    (hgeo : GeometryOfClass pixeldims height depth)
    (hstr : StridesRight pixeldims r nchans width height) :
    VisitsEachOnce (walkOffset pixeldims r) width height depth nchans r.format.size := by
  apply VisitsEachOnce_congr _
    (fun z y x c => elementIndex width height nchans z y x c * (r.format.size : Int))
  · rintro z y x c ⟨⟨hz, hzd⟩, ⟨hy, hyh⟩, _, _⟩
    obtain ⟨hx, hy2, hz2⟩ := hstr
    unfold walkOffset elementIndex
    rcases hgeo with h3 | ⟨h2, hd⟩ | ⟨h1, hd, hh1⟩
    · subst h3
      rw [hx, hy2 (by decide), hz2 rfl]
      simp only [true_or, if_true]
      ring
    · subst h2
      have hz0 : z = 0 := by omega
      subst hz0
      rw [hx, hy2 (by decide)]
      simp only [show ¬ ((2 : Int) = 3) by decide, if_false, or_true, if_true, false_or]
      ring
    · subst h1
      have hz0 : z = 0 := by omega
      have hy0 : y = 0 := by omega
      subst hz0 hy0
      rw [hx]
      simp only [show ¬ ((1 : Int) = 3) by decide, show ¬ ((1 : Int) = 2) by decide, if_false,
        or_self]
      ring
  · exact elementIndex_visits width height depth nchans _ hw hh hc (by exact_mod_cast hs)

theorem autoStride_neg : AutoStride < 0 := by decide

theorem stridesRight_auto_stride (pixeldims : Int) (r : oiio_bufinfo)
    (nchans width height : Int)
    (hx : r.xstride = nchans * (r.format.size : Int) ∨ r.xstride = AutoStride)
    (hy : pixeldims ≠ 1 →
      r.ystride = width * nchans * (r.format.size : Int) ∨ r.ystride = AutoStride)
    (hz : pixeldims = 3 → r.zstride = height * width * nchans * (r.format.size : Int)) :
    StridesRight pixeldims (auto_stride r nchans width) nchans width height := by
  have hxs : (auto_stride r nchans width).xstride = nchans * (r.format.size : Int) := by
    show (if r.xstride = AutoStride then nchans * (r.format.size : Int) else r.xstride) = _
    rcases hx with h | h
    · split_ifs <;> [rfl; exact h]
    · rw [if_pos h]
  refine ⟨hxs, ?_, hz⟩
  intro hp
  show (if r.ystride = AutoStride then (auto_stride r nchans width).xstride * width
    else r.ystride) = _
  rw [hxs]
  rcases hy hp with h | h
  · split_ifs
    · show nchans * (r.format.size : Int) * width = width * nchans * (r.format.size : Int)
      ring
    · exact h
  · rw [if_pos h]
    show nchans * (r.format.size : Int) * width = width * nchans * (r.format.size : Int)
    ring

theorem ite_typeDesc (P : TypeDesc → Prop) (p : Prop) [Decidable p] (a x : TypeDesc)
    (ha : P a) (hx : P x) : P (if p then a else x) := by
  by_cases hp : p
  · rw [if_pos hp]; exact ha
  · rw [if_neg hp]; exact hx

theorem typedesc_from_python_array_code_size_pos (c : Char)
    (h : typedesc_from_python_array_code c ≠ TypeUnknown) :
    0 < (typedesc_from_python_array_code c).size := by
  revert h
  unfold typedesc_from_python_array_code
  repeat' refine ite_typeDesc (fun t => t ≠ TypeUnknown → 0 < t.size) _ _ _ (by decide) ?_
  decide

theorem depth_eq_one_of_count (width height depth nchans : Int)
    (hw : 0 < width) (hh : 0 < height) (hc : 0 < nchans)
    (h : height * width * nchans = width * height * depth * nchans) : depth = 1 := by
  have hpos : 0 < height * width * nchans := Int.mul_pos (Int.mul_pos hh hw) hc
  have h2 : height * width * nchans * depth = height * width * nchans * 1 := by
    rw [mul_one]
    calc height * width * nchans * depth = width * height * depth * nchans := by ring
      _ = height * width * nchans := h.symm
  exact Int.eq_of_mul_eq_mul_left (by omega) h2

theorem row_eq_one_of_count (width height depth nchans : Int)
    (hw : 0 < width) (hh : 0 < height) (hc : 0 < nchans)
    (h : width * nchans = width * height * depth * nchans) : depth = 1 ∧ height = 1 := by
  have hpos : 0 < width * nchans := Int.mul_pos hw hc
  have h2 : width * nchans * (height * depth) = width * nchans * 1 := by
    rw [mul_one]
    calc width * nchans * (height * depth) = width * height * depth * nchans := by ring
      _ = width * nchans := h.symm
  have h3 : height * depth = 1 := Int.eq_of_mul_eq_mul_left (by omega) h2
  have h4 : height = 1 := Int.eq_one_of_mul_eq_one_right (by omega) h3
  rw [h4, one_mul] at h3
  exact ⟨h3, h4⟩

theorem stridesRight_assignData (pixeldims : Int) (pybuf : buffer_info) (c : oiio_bufinfo)
    (nchans width height : Int) (h : StridesRight pixeldims c nchans width height) :
    StridesRight pixeldims (assignData pybuf c) nchans width height := by
  obtain ⟨af, _, ax, ay, az, _, _⟩ := assignData_fields pybuf c
  unfold StridesRight
  rw [af, ax, ay, az]
  exact h

theorem auto_stride_assignData (pybuf : buffer_info) (c : oiio_bufinfo) (nchans width : Int) :
    (auto_stride (assignData pybuf c) nchans width).format = c.format
      ∧ (auto_stride (assignData pybuf c) nchans width).xstride
          = (auto_stride c nchans width).xstride
      ∧ (auto_stride (assignData pybuf c) nchans width).ystride
          = (auto_stride c nchans width).ystride
      ∧ (auto_stride (assignData pybuf c) nchans width).zstride
          = (auto_stride c nchans width).zstride := by
  obtain ⟨af, _, ax, ay, az, _, _⟩ := assignData_fields pybuf c
  unfold auto_stride
  simp only [af, ax, ay, az, and_self]

/-- The strides that the shape interpretation computes for a contiguous buffer of
one of the listed conventions other than [depth, height, width * nchans] and
[height, width * nchans]: each is the contiguous row-major stride or is left at
`AutoStride`, and the geometry is one that the class can address. -/
theorem contiguous_strides (pybuf : buffer_info) (code : Char)
    (nchans width height depth pixeldims : Int) (c : oiio_bufinfo)
    (hbuf : IsContiguousConventionBuffer pybuf code nchans width height depth pixeldims)
    (hfit : ProductsFitInt pybuf nchans depth)
    (hprod : pybuf.size = pybuf.shape.prod)
    (hres : resolveShape pybuf nchans width height depth pixeldims (afterGate pybuf) = some c)
    (hisz : pybuf.itemsize = (c.format.size : Int)) :
    (pybuf.shape ∈ explicitShapes pixeldims nchans width height depth →
      GeometryOfClass pixeldims height depth
        ∧ StridesRight pixeldims c nchans width height)
    ∧ (pybuf.shape ∈ autoShapes pixeldims nchans width height →
      GeometryOfClass pixeldims height depth
        ∧ c.ystride = AutoStride
        ∧ (c.xstride = nchans * (c.format.size : Int) ∨ c.xstride = AutoStride)) := by
  obtain ⟨⟨hw, hh, hd, hc⟩, ⟨_, _, _, hc32⟩, _, _, _, hsize, _, _, hnd, hstrides⟩ := hbuf
  obtain ⟨_, hext⟩ := hfit
  rw [hsize] at hprod
  constructor
  · intro hmem
    unfold explicitShapes at hmem
    split_ifs at hmem with h3 h2 h1
    · simp only [List.mem_singleton] at hmem
      subst h3
      have hnd4 : pybuf.ndim = 4 := by rw [hnd, hmem]; rfl
      have hs : pybuf.strides = [pybuf.itemsize * [height, width, nchans].prod,
          pybuf.itemsize * [width, nchans].prod, pybuf.itemsize * [nchans].prod,
          pybuf.itemsize * ([] : List Int).prod] := by rw [hstrides, hmem]; rfl
      rw [resolveShape_dhwc pybuf nchans width height depth _ _ _ _ _ hnd4 hmem hs] at hres
      have hcc := Option.some.inj hres
      subst hcc
      refine ⟨Or.inl rfl, ?_, ?_, ?_⟩
      · show pybuf.itemsize * [nchans].prod = _
        rw [hisz]; simp only [List.prod_cons, List.prod_nil]; ring
      · intro _
        show pybuf.itemsize * [width, nchans].prod = _
        rw [hisz]; simp only [List.prod_cons, List.prod_nil]; ring
      · intro _
        show pybuf.itemsize * [height, width, nchans].prod = _
        rw [hisz]; simp only [List.prod_cons, List.prod_nil]; ring
    · simp only [List.mem_singleton] at hmem
      subst h2
      have hnd3 : pybuf.ndim = 3 := by rw [hnd, hmem]; rfl
      have hs : pybuf.strides = [pybuf.itemsize * [width, nchans].prod,
          pybuf.itemsize * [nchans].prod, pybuf.itemsize * ([] : List Int).prod] := by
        rw [hstrides, hmem]; rfl
      rw [resolveShape_hwc pybuf nchans width height depth _ _ _ _ hnd3 hmem hs] at hres
      have hcc := Option.some.inj hres
      subst hcc
      have hd1 : depth = 1 := by
        apply depth_eq_one_of_count width height depth nchans hw hh hc
        rw [hprod, hmem]; simp only [List.prod_cons, List.prod_nil]; ring
      refine ⟨Or.inr (Or.inl ⟨rfl, hd1⟩), ?_, ?_, ?_⟩
      · show pybuf.itemsize * [nchans].prod = _
        rw [hisz]; simp only [List.prod_cons, List.prod_nil]; ring
      · intro _
        show pybuf.itemsize * [width, nchans].prod = _
        rw [hisz]; simp only [List.prod_cons, List.prod_nil]; ring
      · intro h; exact absurd h (by decide)
    · simp only [List.mem_cons, List.mem_singleton, List.not_mem_nil, or_false] at hmem
      subst h1
      have hgeo : depth = 1 ∧ height = 1 := by
        apply row_eq_one_of_count width height depth nchans hw hh hc
        rcases hmem with hm | hm
        · rw [hprod, hm]; simp only [List.prod_cons, List.prod_nil]; ring
        · rw [hprod, hm]; simp only [List.prod_cons, List.prod_nil]; ring
      refine ⟨Or.inr (Or.inr ⟨rfl, hgeo⟩), ?_⟩
      rcases hmem with hm | hm
      · have hnd2 : pybuf.ndim = 2 := by rw [hnd, hm]; rfl
        have hs : pybuf.strides = [pybuf.itemsize * [nchans].prod,
            pybuf.itemsize * ([] : List Int).prod] := by rw [hstrides, hm]; rfl
        rw [resolveShape_wc pybuf nchans width height depth _ _ _ hnd2 hm hs] at hres
        have hcc := Option.some.inj hres
        subst hcc
        refine ⟨?_, fun h => absurd rfl h, fun h => absurd h (by decide)⟩
        show pybuf.itemsize * [nchans].prod = _
        rw [hisz]; simp only [List.prod_cons, List.prod_nil]; ring
      · have hnd1 : pybuf.ndim = 1 := by rw [hnd, hm]; rfl
        have hs : pybuf.strides = [pybuf.itemsize * ([] : List Int).prod] := by
          rw [hstrides, hm]; rfl
        have hfitwc : InRange32 (width * nchans) := hext _ (by rw [hm]; simp)
        have hm2 : pybuf.shape = [wrap32 (width * nchans)] := by
          rw [wrap32_of_inRange _ hfitwc]; exact hm
        rw [resolveShape_flat_span pybuf nchans width height depth _ _ hnd1 hm2 hs] at hres
        have hcc := Option.some.inj hres
        subst hcc
        refine ⟨?_, fun h => absurd rfl h, fun h => absurd h (by decide)⟩
        show wrap64 (pybuf.itemsize * ([] : List Int).prod * nchans) = _
        have hr : InRange64 (pybuf.itemsize * ([] : List Int).prod * nchans) := by
          have h8 : (afterGate pybuf).format.size ≤ 8 := decodedFormat_size_le pybuf
          have hisz2 : pybuf.itemsize = ((afterGate pybuf).format.size : Int) := hisz
          have h9 : pybuf.itemsize * nchans ≤ 8 * nchans :=
            Int.mul_le_mul_of_nonneg_right (by omega) (by omega)
          have h10 : 0 ≤ pybuf.itemsize * nchans := Int.mul_nonneg (by omega) (by omega)
          unfold InRange32 at hc32
          unfold InRange64
          simp only [List.prod_nil, mul_one]
          constructor <;> omega
        rw [wrap64_of_inRange _ hr, hisz]
        simp only [List.prod_nil]; ring
    · simp at hmem
  · intro hmem
    unfold autoShapes at hmem
    split_ifs at hmem with h2
    · simp only [List.mem_cons, List.mem_singleton, List.not_mem_nil, or_false] at hmem
      subst h2
      have hd1 : depth = 1 := by
        apply depth_eq_one_of_count width height depth nchans hw hh hc
        rcases hmem with hm | hm
        · rw [hprod, hm]; simp only [List.prod_cons, List.prod_nil]; ring
        · rw [hprod, hm]; simp only [List.prod_cons, List.prod_nil]; ring
      refine ⟨Or.inr (Or.inl ⟨rfl, hd1⟩), ?_⟩
      rcases hmem with hm | hm
      · have hnd2 : pybuf.ndim = 2 := by rw [hnd, hm]; rfl
        have hs : pybuf.strides = [pybuf.itemsize * [nchans].prod,
            pybuf.itemsize * ([] : List Int).prod] := by rw [hstrides, hm]; rfl
        have hfithw : InRange32 (width * height) := by
          rw [mul_comm]; exact hext _ (by rw [hm]; simp)
        have hm2 : pybuf.shape = [wrap32 (width * height), nchans] := by
          rw [wrap32_of_inRange _ hfithw, mul_comm]; exact hm
        rw [resolveShape_pixels_chans pybuf nchans width height depth _ _ _ hnd2 hm2 hs] at hres
        have hcc := Option.some.inj hres
        subst hcc
        refine ⟨afterGate_ystride pybuf, Or.inl ?_⟩
        show pybuf.itemsize * [nchans].prod = _
        rw [hisz]; simp only [List.prod_cons, List.prod_nil]; ring
      · have hnd1 : pybuf.ndim = 1 := by rw [hnd, hm]; rfl
        have hs : pybuf.strides = [pybuf.itemsize * ([] : List Int).prod] := by
          rw [hstrides, hm]; rfl
        have hfit3 : InRange32 (height * width * nchans) := hext _ (by rw [hm]; simp)
        have hfit2 : InRange32 (height * width) := by
          unfold InRange32 at hfit3 ⊢
          have h1 : 0 < height * width := Int.mul_pos hh hw
          have h2 : height * width * 1 ≤ height * width * nchans :=
            Int.mul_le_mul_of_nonneg_left (by omega) (by omega)
          constructor <;> omega
        have hm2 : pybuf.shape = [wrap32 (wrap32 (height * width) * nchans)] := by
          rw [wrap32_of_inRange _ hfit2, wrap32_of_inRange _ hfit3]; exact hm
        rw [resolveShape_flat_rectangle pybuf nchans width height depth _ _ hnd1 hm2 hs] at hres
        have hcc := Option.some.inj hres
        subst hcc
        exact ⟨afterGate_ystride pybuf, Or.inr (afterGate_xstride pybuf)⟩
    · simp at hmem

theorem extentsMatch_drop (shape : List Int) :
    ∀ (exts : List Int) (i : Nat), (shape.drop i).length = exts.length →
      extentsMatch shape i exts = some (decide (shape.drop i = exts)) := by
  intro exts
  induction exts with
  | nil =>
    intro i h
    have : shape.drop i = [] := List.length_eq_zero.1 h
    simp [extentsMatch, this]
  | cons e es ih =>
    intro i h
    have hi : i < shape.length := by
      simp only [List.length_drop, List.length_cons] at h
      omega
    have hd : shape.drop i = shape[i] :: shape.drop (i + 1) := List.drop_eq_getElem_cons hi
    have h2 : (shape.drop (i + 1)).length = es.length := by
      simp only [List.length_drop, List.length_cons] at h ⊢
      omega
    unfold extentsMatch
    rw [List.getElem?_eq_getElem hi]
    by_cases hv : shape[i] = e
    · simp only [if_pos hv]
      rw [ih (i + 1) h2]
      have hiff : (shape.drop i = e :: es) ↔ (shape.drop (i + 1) = es) := by
        constructor
        · intro heq
          rw [hd] at heq
          exact (List.cons.inj heq).2
        · intro heq
          rw [hd, hv, heq]
      simp only [hiff]
    · simp only [if_neg hv]
      have hne : ¬ shape.drop i = e :: es := by
        intro heq
        rw [hd] at heq
        exact hv (List.cons.inj heq).1
      simp only [hne, decide_False]

theorem extentsMatch_eq (shape exts : List Int) (h : shape.length = exts.length) :
    extentsMatch shape 0 exts = some (decide (shape = exts)) := by
  have := extentsMatch_drop shape exts 0 (by simpa using h)
  simpa using this

theorem shapeIs_eq (pybuf : buffer_info) (n : Nat) (exts : List Int)
    (hlen : (pybuf.shape.length : Int) = pybuf.ndim) (hn : exts.length = n) :
    shapeIs pybuf n exts = some (decide (pybuf.ndim = n ∧ pybuf.shape = exts)) := by
  unfold shapeIs
  by_cases h : pybuf.ndim = (n : Int)
  · rw [if_pos h]
    have hl : pybuf.shape.length = exts.length := by
      rw [hn]
      have : (pybuf.shape.length : Int) = (n : Int) := by rw [hlen, h]
      exact_mod_cast this
    rw [extentsMatch_eq _ _ hl]
    simp [h]
  · rw [if_neg h]
    simp [h]

theorem resolveShape_fields (pybuf : buffer_info)
    (nchans width height depth pixeldims : Int) (b c : oiio_bufinfo)
    (h : resolveShape pybuf nchans width height depth pixeldims b = some c) :
    c.data = b.data ∧ c.size = b.size ∧ (c.format = b.format ∨ c.format = TypeUnknown) := by
  unfold resolveShape at h
  split_ifs at h
  · unfold resolveVolume at h
    repeat' split at h
    all_goals first
      | (have hc := Option.some.inj h; subst hc; simp)
      | (simp at h)
  · unfold resolveRectangle at h
    repeat' split at h
    all_goals first
      | (have hc := Option.some.inj h; subst hc; simp)
      | (simp at h)
  · unfold resolveSpan at h
    repeat' split at h
    all_goals first
      | (have hc := Option.some.inj h; subst hc; simp)
      | (simp at h)
  · have hc := Option.some.inj h
    subst hc
    simp

theorem postCheck_fields (pybuf : buffer_info) (nchans : Int) (c r : oiio_bufinfo)
    (h : postCheck pybuf nchans c = some r) :
    r.data = c.data ∧ r.size = c.size ∧ (r.format = c.format ∨ r.format = TypeUnknown) := by
  unfold postCheck at h
  repeat' split at h
  all_goals first
    | (have hc := Option.some.inj h; subst hc; simp)
    | (simp at h)

theorem postCheck_isSome (pybuf : buffer_info) (nchans : Int) (c : oiio_bufinfo)
    (hback : 1 < nchans → pybuf.strides ≠ []) :
    ∃ r, postCheck pybuf nchans c = some r := by
  unfold postCheck
  by_cases hn : 1 < nchans
  · rw [if_pos hn]
    cases hl : pybuf.strides.getLast? with
    | none => rw [List.getLast?_eq_none_iff] at hl; exact absurd hl (hback hn)
    | some last =>
      simp only
      split_ifs <;> exact ⟨_, rfl⟩
  · rw [if_neg hn]
    exact ⟨_, rfl⟩

theorem resolveShape_unrecognised (pybuf : buffer_info)
    (nchans width height depth pixeldims : Int) (b : oiio_bufinfo)
    (hclass : pixeldims = 1 ∨ pixeldims = 2 ∨ pixeldims = 3)
    (hlen : (pybuf.shape.length : Int) = pybuf.ndim)
    (hshape : ¬ RecognisedShape pybuf nchans width height depth pixeldims) :
    resolveShape pybuf nchans width height depth pixeldims b
      = some { b with format := TypeUnknown
                      error := shapeErrorMessage pixeldims pybuf.ndim } := by
  unfold RecognisedShape at hshape
  simp only [not_or] at hshape
  obtain ⟨h1, h2, h3, h4, h5, h6, h7, h8⟩ := hshape
  have e4 := shapeIs_eq pybuf 4 [depth, height, width, nchans] hlen rfl
  have e3 := shapeIs_eq pybuf 3 [depth, height, wrap32 (width * nchans)] hlen rfl
  have r3 := shapeIs_eq pybuf 3 [height, width, nchans] hlen rfl
  have r1 := shapeIs_eq pybuf 1 [wrap32 (wrap32 (height * width) * nchans)] hlen rfl
  have s2 := shapeIs_eq pybuf 2 [width, nchans] hlen rfl
  have s1 := shapeIs_eq pybuf 1 [wrap32 (width * nchans)] hlen rfl
  simp only [Nat.cast_ofNat, Nat.cast_one] at e4 e3 r3 r1 s2 s1
  rcases hclass with hp | hp | hp
  · subst hp
    simp only [true_and] at h7 h8
    unfold resolveShape resolveSpan
    rw [s2, s1]
    simp [h7, h8, shapeErrorMessage]
  · subst hp
    simp only [true_and] at h3 h4 h5 h6
    unfold resolveShape resolveRectangle
    rw [r3, r1]
    by_cases hn2 : pybuf.ndim = 2
    · have hl2 : pybuf.shape.length = 2 := by
        have : (pybuf.shape.length : Int) = 2 := by rw [hlen, hn2]
        exact_mod_cast this
      rw [extentsMatch_eq _ [wrap32 (width * height), nchans] hl2,
        extentsMatch_eq _ [height, wrap32 (width * nchans)] hl2]
      have h4b : ¬ pybuf.shape = [wrap32 (width * height), nchans] := fun h => h4 ⟨hn2, h⟩
      have h5b : ¬ pybuf.shape = [height, wrap32 (width * nchans)] := fun h => h5 ⟨hn2, h⟩
      simp [h3, hn2, h4b, h5b, shapeErrorMessage]
    · simp [h3, h6, hn2, shapeErrorMessage]
  · subst hp
    simp only [true_and] at h1 h2
    unfold resolveShape resolveVolume
    rw [e4, e3]
    simp [h1, h2, shapeErrorMessage]

theorem resolveShape_isSome (pybuf : buffer_info)
    (nchans width height depth pixeldims : Int) (b : oiio_bufinfo)
    (hwf : OnePerAxis pybuf) :
    ∃ c, resolveShape pybuf nchans width height depth pixeldims b = some c := by
  obtain ⟨hlen, hstr⟩ := hwf
  by_cases hrec : RecognisedShape pybuf nchans width height depth pixeldims
  · have hs : pybuf.strides.length = pybuf.shape.length := by
      have : (pybuf.strides.length : Int) = (pybuf.shape.length : Int) := by rw [hlen, hstr]
      exact_mod_cast this
    obtain ⟨c, hc, _⟩ := resolveShape_of_recognised_fields pybuf nchans width height depth
      pixeldims b hrec hs
    exact ⟨c, hc⟩
  · by_cases hclass : pixeldims = 1 ∨ pixeldims = 2 ∨ pixeldims = 3
    · exact ⟨_, resolveShape_unrecognised pybuf nchans width height depth pixeldims b hclass
        hlen hrec⟩
    · simp only [not_or] at hclass
      unfold resolveShape
      rw [if_neg hclass.2.2, if_neg hclass.2.1, if_neg hclass.1]
      exact ⟨_, rfl⟩

/-- The two ways in which the constructor returns a record: from the size gate, or
from the shape interpretation followed by the post-check. -/
theorem constructor_cases (pybuf : buffer_info) (nchans width height depth pixeldims : Int)
    (r : oiio_bufinfo)
    (h : oiio_bufinfo.oiio_bufinfo pybuf nchans width height depth pixeldims = some r) :
    (¬ PassesSizeGate pybuf nchans width height depth
        ∧ r = { decodeFormat pybuf oiio_bufinfo.initial with
                  format := TypeUnknown
                  error := wrongSizeMessage depth height width nchans pybuf.size })
    ∨ (PassesSizeGate pybuf nchans width height depth
        ∧ ∃ c p, resolveShape pybuf nchans width height depth pixeldims (afterGate pybuf) = some c
            ∧ postCheck pybuf nchans c = some p ∧ r = assignData pybuf p) := by
  by_cases hgate : PassesSizeGate pybuf nchans width height depth
  · right
    refine ⟨hgate, ?_⟩
    rw [constructor_of_gate pybuf nchans width height depth pixeldims hgate] at h
    cases hc : resolveShape pybuf nchans width height depth pixeldims (afterGate pybuf) with
    | none => rw [hc] at h; simp at h
    | some c =>
      rw [hc] at h
      simp only [Option.some_bind] at h
      cases hp : postCheck pybuf nchans c with
      | none => rw [hp] at h; simp at h
      | some p =>
        rw [hp] at h
        simp only [Option.map_some', Option.some.injEq] at h
        exact ⟨c, p, rfl, hp, h.symm⟩
  · left
    refine ⟨hgate, ?_⟩
    have hc : toSizeT pybuf.itemsize ≠ (decodeFormat pybuf oiio_bufinfo.initial).format.size
        ∨ pybuf.size ≠ expectedCount width height depth nchans := by
      by_contra hn
      simp only [not_or, ne_eq, not_not] at hn
      exact hgate ⟨hn.1, hn.2⟩
    unfold oiio_bufinfo.oiio_bufinfo at h
    simp only [] at h
    rw [if_pos hc] at h
    exact (Option.some.inj h).symm

theorem constructor_isSome (pybuf : buffer_info) (nchans width height depth pixeldims : Int)
    (hwf : OnePerAxis pybuf)
    (hback : PassesSizeGate pybuf nchans width height depth → 1 < nchans →
      pybuf.strides ≠ []) :
    ∃ r, oiio_bufinfo.oiio_bufinfo pybuf nchans width height depth pixeldims = some r := by
  by_cases hgate : PassesSizeGate pybuf nchans width height depth
  · rw [constructor_of_gate pybuf nchans width height depth pixeldims hgate]
    obtain ⟨c, hc⟩ := resolveShape_isSome pybuf nchans width height depth pixeldims
      (afterGate pybuf) hwf
    obtain ⟨p, hp⟩ := postCheck_isSome pybuf nchans c (hback hgate)
    rw [hc]
    simp only [Option.some_bind, hp, Option.map_some']
    exact ⟨_, rfl⟩
  · have hc : toSizeT pybuf.itemsize ≠ (decodeFormat pybuf oiio_bufinfo.initial).format.size
        ∨ pybuf.size ≠ expectedCount width height depth nchans := by
      by_contra hn
      simp only [not_or, ne_eq, not_not] at hn
      exact hgate ⟨hn.1, hn.2⟩
    unfold oiio_bufinfo.oiio_bufinfo
    simp only []
    rw [if_pos hc]
    exact ⟨_, rfl⟩

/-- What every record returned by the constructor satisfies: a known final format
is the decoded one, the data pointer is the descriptor's for a known final format
and null otherwise, and after the size gate the size field is the element count. -/
theorem constructor_result (pybuf : buffer_info) (nchans width height depth pixeldims : Int)
    (r : oiio_bufinfo)
    (h : oiio_bufinfo.oiio_bufinfo pybuf nchans width height depth pixeldims = some r) :
    (r.format ≠ TypeUnknown →
        r.format = decodedFormat pybuf ∧ r.data = pybuf.ptr ∧ r.size = toSizeT pybuf.size)
    ∧ (r.format = TypeUnknown → r.data = 0) := by
  rcases constructor_cases pybuf nchans width height depth pixeldims r h with
    ⟨_, hr⟩ | ⟨_, c, p, hc, hp, hr⟩
  · subst hr
    refine ⟨fun hf => absurd rfl hf, fun _ => ?_⟩
    exact (decodeFormat_fields pybuf oiio_bufinfo.initial).1
  · obtain ⟨cd, cs, cf⟩ := resolveShape_fields pybuf nchans width height depth pixeldims _ c hc
    obtain ⟨pd, ps, pf⟩ := postCheck_fields pybuf nchans c p hp
    obtain ⟨af, _, _, _, _, as, ad⟩ := assignData_fields pybuf p
    subst hr
    constructor
    · intro hf
      rw [af] at hf
      have hpf : p.format = c.format := by
        rcases pf with h1 | h1
        · exact h1
        · exact absurd h1 hf
      have hcf : c.format = (afterGate pybuf).format := by
        rcases cf with h1 | h1
        · exact h1
        · rw [hpf] at hf; exact absurd h1 hf
      refine ⟨?_, ?_, ?_⟩
      · rw [af, hpf, hcf]; rfl
      · rw [ad, if_neg hf]
      · rw [as, ps, cs]; rfl
    · intro hf
      rw [af] at hf
      rw [ad, if_pos hf, pd, cd]
      exact afterGate_data pybuf

theorem typedesc_from_python_array_code_of_not_recognised (c : Char)
    (h : c ∉ recognisedCodes) : typedesc_from_python_array_code c = TypeUnknown := by
  simp only [recognisedCodes, List.mem_cons, List.mem_singleton, List.not_mem_nil, or_false,
    not_or] at h
  obtain ⟨h1, h2, h3, h4, h5, h6, h7, h8, h9, h10, h11, h12⟩ := h
  unfold typedesc_from_python_array_code
  rw [if_neg h1, if_neg h2, if_neg h3, if_neg h4, if_neg h5, if_neg h6, if_neg h7, if_neg h8,
    if_neg h9, if_neg h10, if_neg h11, if_neg h12]
  rfl

theorem span_gate (code : Char) (W C : Int) (pybuf : buffer_info)
    (hW : 0 < W) (hW32 : InRange32 W) (hC32 : InRange32 C)
    (hfmt : pybuf.format = String.singleton code)
    (hitem : pybuf.itemsize = ((typedesc_from_python_array_code code).size : Int))
    (hsize : pybuf.size = W * C) :
    decodedFormat pybuf = typedesc_from_python_array_code code
      ∧ PassesSizeGate pybuf C W 1 1 := by
  have hdec : decodedFormat pybuf = typedesc_from_python_array_code code := by
    apply decodedFormat_of_head
    rw [hfmt]
    rfl
  refine ⟨hdec, ?_, ?_⟩
  · rw [hdec, hitem]
    exact toSizeT_natCast _ (typedesc_from_python_array_code_size_le code)
  · have h64 : InRange64 (W * C) := inRange64_mul _ _ hW32 hC32
    rw [expectedCount_of_fit C W 1 1 (W * C) hW (by decide) hW32 (by decide)
      (by rw [one_mul]; exact hC32) (by ring) h64]
    exact hsize

theorem shapeErrorMessage_ne_empty (p n : Int) : shapeErrorMessage p n ≠ "" := by
  unfold shapeErrorMessage
  split_ifs
  · decide
  · exact shapeMessage_ne_empty p n

theorem noncontiguousMessage_ne_empty : noncontiguousMessage ≠ "" := by decide

/-- A buffer that passes the size gate and whose shape is not recognised for its
class 1, 2 or 3 is left by the shape interpretation with format Unknown and the
shape error of the class; with at most one channel this is the final record. -/
theorem constructor_of_unrecognised (pybuf : buffer_info)
    (nchans width height depth pixeldims : Int)
    (hclass : pixeldims = 1 ∨ pixeldims = 2 ∨ pixeldims = 3)
    (hwf : OnePerAxis pybuf)
    (hgate : PassesSizeGate pybuf nchans width height depth)
    (hshape : ¬ RecognisedShape pybuf nchans width height depth pixeldims)
    (hback : 1 < nchans → pybuf.strides ≠ []) :
    ∃ r, oiio_bufinfo.oiio_bufinfo pybuf nchans width height depth pixeldims = some r
      ∧ r.format = TypeUnknown
      ∧ r.data = 0
      ∧ r.error ≠ ""
      ∧ (nchans ≤ 1 → r.error = shapeErrorMessage pixeldims pybuf.ndim) := by
  have hres := resolveShape_unrecognised pybuf nchans width height depth pixeldims
    (afterGate pybuf) hclass hwf.1 hshape
  obtain ⟨p, hp⟩ := postCheck_isSome pybuf nchans
    { afterGate pybuf with format := TypeUnknown
                           error := shapeErrorMessage pixeldims pybuf.ndim } hback
  have hctor : oiio_bufinfo.oiio_bufinfo pybuf nchans width height depth pixeldims
      = some (assignData pybuf p) := by
    rw [constructor_of_gate pybuf nchans width height depth pixeldims hgate, hres]
    simp only [Option.some_bind, hp, Option.map_some']
  obtain ⟨pd, _, pf⟩ := postCheck_fields pybuf nchans _ p hp
  have hpf : p.format = TypeUnknown := by
    rcases pf with h | h
    · exact h
    · exact h
  obtain ⟨af, ae, _, _, _, _, ad⟩ := assignData_fields pybuf p
  have hperr : p.error ≠ "" ∧ (nchans ≤ 1 → p.error = shapeErrorMessage pixeldims pybuf.ndim) := by
    unfold postCheck at hp
    by_cases hn : 1 < nchans
    · rw [if_pos hn] at hp
      refine ⟨?_, fun h => absurd hn (by omega)⟩
      split at hp
      · simp at hp
      · split_ifs at hp
        · have := Option.some.inj hp
          subst this
          exact noncontiguousMessage_ne_empty
        · have := Option.some.inj hp
          subst this
          exact shapeErrorMessage_ne_empty _ _
    · rw [if_neg hn] at hp
      have := Option.some.inj hp
      subst this
      exact ⟨shapeErrorMessage_ne_empty _ _, fun _ => rfl⟩
  refine ⟨_, hctor, ?_, ?_, ?_, ?_⟩
  · rw [af, hpf]
  · rw [ad, if_pos hpf, pd]; exact afterGate_data pybuf
  · rw [ae]; exact hperr.1
  · intro hn; rw [ae]; exact hperr.2 hn

theorem expectedCount_of_inRange (nchans width height depth : Int)
    (hw : InRange32 width) (hh : InRange32 height) (hdc : InRange32 (depth * nchans))
    (h64 : InRange64 (width * height * (depth * nchans))) :
    expectedCount width height depth nchans = width * height * (depth * nchans) := by
  unfold expectedCount
  rw [wrap32_of_inRange _ hdc, wrap64_of_inRange _ (inRange64_mul _ _ hw hh),
    wrap64_of_inRange _ h64]

theorem constructor_of_gate_failure (pybuf : buffer_info)
    (nchans width height depth pixeldims : Int)
    (hgate : ¬ PassesSizeGate pybuf nchans width height depth) :
    oiio_bufinfo.oiio_bufinfo pybuf nchans width height depth pixeldims
      = some { decodeFormat pybuf oiio_bufinfo.initial with
                 format := TypeUnknown
                 error := wrongSizeMessage depth height width nchans pybuf.size } := by
  have hc : toSizeT pybuf.itemsize ≠ (decodeFormat pybuf oiio_bufinfo.initial).format.size
      ∨ pybuf.size ≠ expectedCount width height depth nchans := by
    by_contra hn
    simp only [not_or, ne_eq, not_not] at hn
    exact hgate ⟨hn.1, hn.2⟩
  unfold oiio_bufinfo.oiio_bufinfo
  simp only []
  rw [if_pos hc]

/-- Without overflow in the element-count test, a descriptor without axes whose
element count is the empty product 1 passes the size gate only with `nchans` 1
or -1. -/
theorem gate_without_axes (pybuf : buffer_info) (nchans width height depth : Int)
    (hwf : OnePerAxis pybuf)
    (hprod : pybuf.size = pybuf.shape.prod)
    (hw : InRange32 width) (hh : InRange32 height) (hdc : InRange32 (depth * nchans))
    (h64 : InRange64 (width * height * (depth * nchans)))
    (hgate : PassesSizeGate pybuf nchans width height depth)
    (hn : 1 < nchans) : 1 ≤ pybuf.ndim := by
  by_contra hnd
  have hlen : pybuf.shape.length = 0 := by
    have := hwf.1
    omega
  have hshape : pybuf.shape = [] := List.length_eq_zero.1 hlen
  have hsize : pybuf.size = 1 := by rw [hprod, hshape]; rfl
  have hcount := hgate.2
  rw [expectedCount_of_inRange nchans width height depth hw hh hdc h64, hsize] at hcount
  have h1 : nchans * (width * height * depth) = 1 := by
    rw [hcount]; ring
  rcases Int.eq_one_or_neg_one_of_mul_eq_one h1 with h | h <;> omega

/-! ## The claims -/

/-! ### C1: item size mismatch -/

/-- Claim C1: whatever the geometry, the shape, the strides and `pixeldims` are, a
descriptor whose item byte size differs from the byte size of its decoded format
(Unknown, of size 0, for an empty or unrecognised code) is rejected by the size
gate: the result has format Unknown, the wrong-size message and a null data
pointer. -/
theorem itemsize_mismatch_rejected (pybuf : buffer_info)
    (nchans width height depth pixeldims : Int)
    (hrange : InRange64 pybuf.itemsize)
    (hne : pybuf.itemsize ≠ ((decodedFormat pybuf).size : Int)) :
    ∃ r, oiio_bufinfo.oiio_bufinfo pybuf nchans width height depth pixeldims = some r
      ∧ r.format = TypeUnknown
      ∧ r.error = wrongSizeMessage depth height width nchans pybuf.size
      ∧ r.error ≠ ""
      ∧ r.data = 0 := by
  have hsz : toSizeT pybuf.itemsize ≠ (decodedFormat pybuf).size := by
    intro h
    exact hne ((toSizeT_eq_iff _ _ hrange (decodedFormat_size_le pybuf)).1 h)
  have hsz2 : toSizeT pybuf.itemsize ≠ (decodeFormat pybuf oiio_bufinfo.initial).format.size :=
    hsz
  refine ⟨{ decodeFormat pybuf oiio_bufinfo.initial with
      format := TypeUnknown
      error := wrongSizeMessage depth height width nchans pybuf.size }, ?_, rfl, rfl,
    wrongSizeMessage_ne_empty _ _ _ _ _, ?_⟩
  · unfold oiio_bufinfo.oiio_bufinfo
    simp only [hsz2, ne_eq, not_false_eq_true, true_or, if_true]
  · show (decodeFormat pybuf oiio_bufinfo.initial).data = 0
    unfold decodeFormat
    split <;> rfl

/-- Witness for C1: a float32 code with item size 8, on a 2x4x3 rectangle. -/
theorem itemsize_mismatch_rejected_witness :
    ∃ r, oiio_bufinfo.oiio_bufinfo ⟨7, 8, 24, "f", 3, [2, 4, 3], [96, 24, 8]⟩ 3 4 2 1 2 = some r
      ∧ r.format = TypeUnknown
      ∧ r.error = wrongSizeMessage 1 2 4 3 24
      ∧ r.error ≠ ""
      ∧ r.data = 0 :=
  itemsize_mismatch_rejected ⟨7, 8, 24, "f", 3, [2, 4, 3], [96, 24, 8]⟩ 3 4 2 1 2
    (by decide) (by decide)

/-! ### C2: element count mismatch -/

/-- Claim C2 (evaluation at the failing input): with depth 65536 and 65536 channels
the product `depth * nchans` computed in `int` is 0, so the expected count is 0 and
an empty float32 buffer of shape [65536, 1, 0] passes the size gate and is resolved
successfully although the geometry asks for 65536 x 1 x 65536 x 65536 elements. -/
theorem element_count_test_overflows :
    (0 : Int) ≠ 65536 * 1 * 65536 * 65536
      ∧ oiio_bufinfo.oiio_bufinfo ⟨7, 4, 0, "f", 3, [65536, 1, 0], [4, 4, 4]⟩
          65536 65536 1 65536 3
        = some { format := TypeDesc.ofBase .FLOAT, data := 7, xstride := 4, ystride := 4,
                 zstride := 4, size := 0, error := "" } := by
  constructor
  · decide
  · rfl

/-! ### C3: noncontiguous channels -/

/-- Claim C3: a buffer that passes the size gate and has a recognised shape, with
more than one channel and a last-axis stride different from the element size of
the decoded format, is rejected with the noncontiguous-channels message, format
Unknown and a null data pointer. -/
theorem noncontiguous_channels_rejected (pybuf : buffer_info)
    (nchans width height depth pixeldims last : Int)
    (hgate : PassesSizeGate pybuf nchans width height depth)
    (hshape : RecognisedShape pybuf nchans width height depth pixeldims)
    (hstr : pybuf.strides.length = pybuf.shape.length)
    (hn : 1 < nchans)
    (hlast : pybuf.strides.getLast? = some last)
    (hrange : InRange64 last)
    (hne : last ≠ ((decodedFormat pybuf).size : Int)) :
    ∃ r, oiio_bufinfo.oiio_bufinfo pybuf nchans width height depth pixeldims = some r
      ∧ r.format = TypeUnknown ∧ r.error = noncontiguousMessage ∧ r.data = 0 := by
  obtain ⟨c, hc, hf, _, hd, _⟩ := resolveShape_of_recognised_fields pybuf nchans width height
    depth pixeldims (afterGate pybuf) hshape hstr
  have hsz : toSizeT last ≠ c.format.size := by
    rw [hf, afterGate_format]
    intro h
    exact hne ((toSizeT_eq_iff _ _ hrange (decodedFormat_size_le pybuf)).1 h)
  refine ⟨{ c with format := TypeUnknown, error := noncontiguousMessage }, ?_, rfl, rfl, ?_⟩
  · rw [constructor_of_gate pybuf nchans width height depth pixeldims hgate, hc]
    simp only [Option.some_bind, postCheck, if_pos hn, hlast, ne_eq, hsz, not_false_eq_true,
      if_true, Option.map_some', assignData, not_true_eq_false, if_false]
  · show c.data = 0
    rw [hd, afterGate_data]

/-- Witness for C3: three channels, float32 elements of size 4, last-axis stride 8. -/
theorem noncontiguous_channels_rejected_witness :
    ∃ r, oiio_bufinfo.oiio_bufinfo ⟨7, 4, 24, "f", 3, [2, 4, 3], [96, 24, 8]⟩ 3 4 2 1 2 = some r
      ∧ r.format = TypeUnknown ∧ r.error = noncontiguousMessage ∧ r.data = 0 :=
  noncontiguous_channels_rejected ⟨7, 4, 24, "f", 3, [2, 4, 3], [96, 24, 8]⟩ 3 4 2 1 2 8
    (by decide) (by decide) (by decide) (by decide) (by decide) (by decide) (by decide)

/-! ### C4: contiguous buffers of the listed conventions -/

/-- Claim C4, as amended: for a positive geometry, a contiguous row-major buffer of a
recognised element format whose shape is one of the listed conventions, and on which
the 32-bit products of the source (`depth * nchans` and the merged extents of the
shape) do not overflow, is resolved successfully: the format is the decoded format,
which is not Unknown, the error message is empty and the data pointer is that of the
descriptor. -/
theorem contiguous_convention_resolved (pybuf : buffer_info) (code : Char)
    (nchans width height depth pixeldims : Int)
    (hbuf : IsContiguousConventionBuffer pybuf code nchans width height depth pixeldims)
    (hfit : ProductsFitInt pybuf nchans depth) :
    ∃ r, oiio_bufinfo.oiio_bufinfo pybuf nchans width height depth pixeldims = some r
      ∧ r.format = typedesc_from_python_array_code code
      ∧ r.format ≠ TypeUnknown
      ∧ r.error = ""
      ∧ r.data = pybuf.ptr := by
  obtain ⟨hdec, hgate, hrec, hlen, hlast, hsz⟩ :=
    contiguous_buffer_recognised pybuf code nchans width height depth pixeldims hbuf hfit
  obtain ⟨c, _, hctor, hf, he, _, _⟩ := constructor_of_recognised pybuf nchans width height
    depth pixeldims hgate hrec hlen (fun _ => ⟨_, hlast, hsz⟩)
  have hknown : typedesc_from_python_array_code code ≠ TypeUnknown := hbuf.2.2.1
  obtain ⟨af, ae, _, _, _, _, ad⟩ := assignData_fields pybuf c
  refine ⟨assignData pybuf c, hctor, ?_, ?_, ?_, ?_⟩
  · rw [af, hf, hdec]
  · rw [af, hf, hdec]; exact hknown
  · rw [ae, he]
  · rw [ad, hf, hdec, if_neg hknown]

/-- Witness for C4 as amended: the float32 rectangle 2 x 4 with 3 channels, flattened
to shape [2, 12]. -/
theorem contiguous_convention_resolved_witness :
    ∃ r, oiio_bufinfo.oiio_bufinfo ⟨7, 4, 24, "f", 2, [2, 12], [48, 4]⟩ 3 4 2 1 2 = some r
      ∧ r.format = typedesc_from_python_array_code 'f'
      ∧ r.format ≠ TypeUnknown
      ∧ r.error = ""
      ∧ r.data = 7 :=
  contiguous_convention_resolved ⟨7, 4, 24, "f", 2, [2, 12], [48, 4]⟩ 'f' 3 4 2 1 2
    (by decide) (by decide)

/-- Counterexample to C4 as stated: a contiguous one-axis buffer of 2^32 bytes for a
span of 65536 pixels of 65536 channels meets every hypothesis of the claim, but the
source compares its extent with `width * nchans` computed in `int`, which is 0, and
the buffer is rejected. -/
theorem contiguous_convention_rejected_on_overflow :
    IsContiguousConventionBuffer ⟨7, 1, 4294967296, "B", 1, [4294967296], [1]⟩ 'B'
        65536 65536 1 1 1
      ∧ oiio_bufinfo.oiio_bufinfo ⟨7, 1, 4294967296, "B", 1, [4294967296], [1]⟩
          65536 65536 1 1 1
        = some { format := TypeUnknown, data := 0, xstride := AutoStride,
                 ystride := AutoStride, zstride := AutoStride, size := 4294967296,
                 error := noncontiguousMessage } := by
  constructor
  · decide
  · rfl

/-! ### C5: walking the buffer with the resolved strides -/

/-- Claim C5, as amended: for a positive geometry, a contiguous row-major buffer of a
recognised element format whose element count is the product of its extents, on
which the 32-bit products of the source do not overflow, is resolved successfully.
When its shape is [depth, height, width, nchans] (class 3), [height, width, nchans]
(class 2), [width, nchans] or [width * nchans] (class 1), walking with the returned
strides visits every element of the buffer exactly once.
When its shape is [height * width, nchans] or [height * width * nchans] (class 2),
the returned y stride is `AutoStride`, and walking with the returned strides, the
contiguous defaults being used for those left at `AutoStride`, visits every element
of the buffer exactly once. -/
theorem walk_visits_each_element_once (pybuf : buffer_info) (code : Char)
    (nchans width height depth pixeldims : Int)
    (hbuf : IsContiguousConventionBuffer pybuf code nchans width height depth pixeldims)
    (hfit : ProductsFitInt pybuf nchans depth)
    (hprod : pybuf.size = pybuf.shape.prod) :
    (pybuf.shape ∈ explicitShapes pixeldims nchans width height depth →
      ∃ r, oiio_bufinfo.oiio_bufinfo pybuf nchans width height depth pixeldims = some r
        ∧ r.format ≠ TypeUnknown ∧ r.error = ""
        ∧ VisitsEachOnce (walkOffset pixeldims r) width height depth nchans r.format.size)
    ∧ (pybuf.shape ∈ autoShapes pixeldims nchans width height →
      ∃ r, oiio_bufinfo.oiio_bufinfo pybuf nchans width height depth pixeldims = some r
        ∧ r.format ≠ TypeUnknown ∧ r.error = "" ∧ r.ystride = AutoStride
        ∧ VisitsEachOnce (walkOffset pixeldims (auto_stride r nchans width))
            width height depth nchans r.format.size) := by
  obtain ⟨hdec, hgate, hrec, hlen, hlast, hsz⟩ :=
    contiguous_buffer_recognised pybuf code nchans width height depth pixeldims hbuf hfit
  obtain ⟨c, hres, hctor, hf, he, _, _⟩ := constructor_of_recognised pybuf nchans width height
    depth pixeldims hgate hrec hlen (fun _ => ⟨_, hlast, hsz⟩)
  have hknown : typedesc_from_python_array_code code ≠ TypeUnknown := hbuf.2.2.1
  have hitem : pybuf.itemsize = ((typedesc_from_python_array_code code).size : Int) :=
    hbuf.2.2.2.2.1
  obtain ⟨hw, hh, _, hc⟩ := hbuf.1
  have hspos : 0 < c.format.size := by
    rw [hf, hdec]; exact typedesc_from_python_array_code_size_pos code hknown
  have hisz : pybuf.itemsize = (c.format.size : Int) := by rw [hf, hdec]; exact hitem
  obtain ⟨af, ae, _, ay, _, _, _⟩ := assignData_fields pybuf c
  have hrf : (assignData pybuf c).format ≠ TypeUnknown := by rw [af, hf, hdec]; exact hknown
  have hre : (assignData pybuf c).error = "" := by rw [ae]; exact he
  obtain ⟨hexp, hauto⟩ := contiguous_strides pybuf code nchans width height depth pixeldims c
    hbuf hfit hprod hres hisz
  constructor
  · intro hmem
    obtain ⟨hgeo, hstr⟩ := hexp hmem
    refine ⟨assignData pybuf c, hctor, hrf, hre, ?_⟩
    exact walk_of_stridesRight pixeldims (assignData pybuf c) nchans width height depth hw hh hc
      (by rw [af]; exact hspos) hgeo (stridesRight_assignData pixeldims pybuf c _ _ _ hstr)
  · intro hmem
    obtain ⟨hgeo, hy, hx⟩ := hauto hmem
    refine ⟨assignData pybuf c, hctor, hrf, hre, by rw [ay]; exact hy, ?_⟩
    have hp2 : pixeldims ≠ 3 := by
      intro h3
      rw [autoShapes, if_neg (by rw [h3]; decide)] at hmem
      simp at hmem
    have hright : StridesRight pixeldims (auto_stride (assignData pybuf c) nchans width)
        nchans width height := by
      apply stridesRight_auto_stride
      · rw [(assignData_fields pybuf c).2.2.1, af]; exact hx
      · intro _; right; rw [ay]; exact hy
      · intro h3; exact absurd h3 hp2
    exact walk_of_stridesRight pixeldims (auto_stride (assignData pybuf c) nchans width)
      nchans width height depth hw hh hc
      (by show 0 < (assignData pybuf c).format.size; rw [af]; exact hspos) hgeo hright

/-- Witness for C5 as amended: the float32 rectangle 2 x 4 with 3 channels, as the
array of shape [2, 4, 3] and as the array of shape [8, 3]. -/
theorem walk_visits_each_element_once_witness :
    (∃ r, oiio_bufinfo.oiio_bufinfo ⟨7, 4, 24, "f", 3, [2, 4, 3], [48, 12, 4]⟩ 3 4 2 1 2 = some r
        ∧ r.format ≠ TypeUnknown ∧ r.error = ""
        ∧ VisitsEachOnce (walkOffset 2 r) 4 2 1 3 r.format.size)
    ∧ (∃ r, oiio_bufinfo.oiio_bufinfo ⟨7, 4, 24, "f", 2, [8, 3], [12, 4]⟩ 3 4 2 1 2 = some r
        ∧ r.format ≠ TypeUnknown ∧ r.error = "" ∧ r.ystride = AutoStride
        ∧ VisitsEachOnce (walkOffset 2 (auto_stride r 3 4)) 4 2 1 3 r.format.size) :=
  ⟨(walk_visits_each_element_once ⟨7, 4, 24, "f", 3, [2, 4, 3], [48, 12, 4]⟩ 'f'
      3 4 2 1 2 (by decide) (by decide) (by decide)).1 (by decide),
    (walk_visits_each_element_once ⟨7, 4, 24, "f", 2, [8, 3], [12, 4]⟩ 'f'
      3 4 2 1 2 (by decide) (by decide) (by decide)).2 (by decide)⟩

/-- Counterexample to C5 as stated: the contiguous float32 buffer of shape [8, 3] for
width 4, height 2 and 3 channels is resolved successfully, but its y stride is left
at `AutoStride`, so the walk with the returned strides does not stay within the
buffer: the element (z, y, x, c) = (0, 1, 0, 0) gets a negative offset. -/
theorem walk_with_unset_ystride :
    IsContiguousConventionBuffer ⟨7, 4, 24, "f", 2, [8, 3], [12, 4]⟩ 'f' 3 4 2 1 2
      ∧ (24 : Int) = [8, 3].prod
      ∧ ∃ r, oiio_bufinfo.oiio_bufinfo ⟨7, 4, 24, "f", 2, [8, 3], [12, 4]⟩ 3 4 2 1 2 = some r
          ∧ r.format ≠ TypeUnknown ∧ r.error = ""
          ∧ ¬ VisitsEachOnce (walkOffset 2 r) 4 2 1 3 r.format.size := by
  refine ⟨by decide, by decide, _, rfl, by decide, rfl, ?_⟩
  intro h
  obtain ⟨k, hk0, _, hk⟩ := h.1 0 1 0 0 (by unfold InBox; omega)
  have hoff : walkOffset 2
      { format := TypeDesc.ofBase .FLOAT, data := 7, xstride := 12, ystride := AutoStride,
        zstride := AutoStride, size := 24, error := "" } 0 1 0 0 = -9223372036854775808 := by
    decide
  have hk2 : (-9223372036854775808 : Int) = k * (4 : Nat) := by
    rw [← hoff]; exact hk
  omega

/-! ### C6: the shapes [H, W, C] and [H, W * C] -/

/-- Claim C6 (evaluation at the failing input): for height 2, width 4, 3 channels and
float32 elements, the contiguous buffer of shape [2, 4, 3] is resolved with xstride
12 and ystride 48, and the contiguous buffer of shape [2, 12] over the same memory
with ystride 48 and xstride 48 * 3 = 144: the pixel (y, x, c) = (0, 1, 0) is at byte
offset 12 in the first layout and 144 in the second. -/
theorem rectangle_merged_channels_xstride :
    oiio_bufinfo.oiio_bufinfo ⟨7, 4, 24, "f", 3, [2, 4, 3], [48, 12, 4]⟩ 3 4 2 1 2
        = some { format := TypeDesc.ofBase .FLOAT, data := 7, xstride := 12, ystride := 48,
                 zstride := AutoStride, size := 24, error := "" }
      ∧ oiio_bufinfo.oiio_bufinfo ⟨7, 4, 24, "f", 2, [2, 12], [48, 4]⟩ 3 4 2 1 2
        = some { format := TypeDesc.ofBase .FLOAT, data := 7, xstride := 144, ystride := 48,
                 zstride := AutoStride, size := 24, error := "" }
      ∧ (0 : Int) * 48 + 1 * 12 + 0 * 4 ≠ 0 * 48 + 1 * 144 + 0 * 4 := by
  refine ⟨rfl, rfl, by decide⟩

/-! ### C7: three axes [height, width, nchans] -/

/-- Claim C7, as amended: for `pixeldims = 2`, a buffer whose format code decodes to a
known format, that passes the size gate, has the three axes [height, width, nchans]
and, when there are several channels, a last-axis stride equal to the element size,
is resolved successfully: the format is the decoded format, which is not Unknown,
the error message is empty, the data pointer is that of the descriptor, xstride is
the stride of axis 1 and ystride the stride of axis 0. -/
theorem rectangle_three_axes_resolved (pybuf : buffer_info)
    (nchans width height depth s0 s1 s2 : Int)
    (hknown : decodedFormat pybuf ≠ TypeUnknown)
    (hgate : PassesSizeGate pybuf nchans width height depth)
    (hnd : pybuf.ndim = 3)
    (hshape : pybuf.shape = [height, width, nchans])
    (hstr : pybuf.strides = [s0, s1, s2])
    (hlast : 1 < nchans → s2 = ((decodedFormat pybuf).size : Int)) :
    ∃ r, oiio_bufinfo.oiio_bufinfo pybuf nchans width height depth 2 = some r
      ∧ r.format = decodedFormat pybuf
      ∧ r.format ≠ TypeUnknown
      ∧ r.error = ""
      ∧ r.xstride = s1
      ∧ r.ystride = s0
      ∧ r.data = pybuf.ptr := by
  have hctor := constructor_of_three_axes pybuf nchans width height depth s0 s1 s2 hgate hnd
    hshape hstr hlast
  obtain ⟨af, ae, ax, ay, _, _, ad⟩ :=
    assignData_fields pybuf { afterGate pybuf with xstride := s1, ystride := s0 }
  have hfmt : (assignData pybuf { afterGate pybuf with xstride := s1, ystride := s0 }).format
      = decodedFormat pybuf := by rw [af]; rfl
  refine ⟨_, hctor, hfmt, ?_, ?_, ?_, ?_, ?_⟩
  · rw [hfmt]; exact hknown
  · rw [ae]; exact afterGate_error pybuf
  · rw [ax]
  · rw [ay]
  · rw [ad]
    show (if decodedFormat pybuf = TypeUnknown then (afterGate pybuf).data else pybuf.ptr) = _
    rw [if_neg hknown]

/-- Witness for C7 as amended: width 4, height 2, depth 1, 3 channels, shape [2, 4, 3]
with the float32 strides [48, 12, 4] gives xstride 12, ystride 48 and format FLOAT. -/
theorem rectangle_three_axes_resolved_witness :
    ∃ r, oiio_bufinfo.oiio_bufinfo ⟨7, 4, 24, "f", 3, [2, 4, 3], [48, 12, 4]⟩ 3 4 2 1 2 = some r
      ∧ r.format = TypeDesc.ofBase .FLOAT
      ∧ r.format ≠ TypeUnknown
      ∧ r.error = ""
      ∧ r.xstride = 12
      ∧ r.ystride = 48
      ∧ r.data = 7 :=
  rectangle_three_axes_resolved ⟨7, 4, 24, "f", 3, [2, 4, 3], [48, 12, 4]⟩ 3 4 2 1 48 12 4
    (by decide) (by decide) (by decide) (by decide) (by decide) (by decide)

/-- Counterexample to C7 as stated: a descriptor with the unrecognised format code
`x` and item size 0 passes the size gate (the Unknown format has size 0), has the
three axes [2, 4, 3] and a last-axis stride 0 equal to the element size, but the
result is not a success: its format is Unknown and its data pointer is null, with
an empty error message. -/
theorem rectangle_three_axes_unknown_format :
    PassesSizeGate ⟨7, 0, 24, "x", 3, [2, 4, 3], [0, 0, 0]⟩ 3 4 2 1
      ∧ (0 : Int) = ((decodedFormat ⟨7, 0, 24, "x", 3, [2, 4, 3], [0, 0, 0]⟩).size : Int)
      ∧ oiio_bufinfo.oiio_bufinfo ⟨7, 0, 24, "x", 3, [2, 4, 3], [0, 0, 0]⟩ 3 4 2 1 2
        = some { format := TypeUnknown, data := 0, xstride := 0, ystride := 0,
                 zstride := AutoStride, size := 24, error := "" } := by
  refine ⟨by decide, by decide, rfl⟩

/-! ### C8: two axes [height * width, nchans] -/

/-- Claim C8, as amended: for `pixeldims = 2`, a buffer that passes the size gate and
has the two axes [height * width, nchans] gets xstride = the stride of axis 0, while
ystride is left at its default `AutoStride`: no y stride is computed.  When the
contiguous default xstride * width is used for it, and the last-axis stride is the
element size, the byte offset of every (y, x, c) is the one given by the layout
[height, width, nchans] over the same memory. -/
theorem rectangle_merged_pixels_resolved (pybuf : buffer_info)
    (nchans width height depth s0 s1 : Int)
    (hgate : PassesSizeGate pybuf nchans width height depth)
    (hnd : pybuf.ndim = 2)
    (hshape : pybuf.shape = [wrap32 (width * height), nchans])
    (hstr : pybuf.strides = [s0, s1]) :
    ∃ r, oiio_bufinfo.oiio_bufinfo pybuf nchans width height depth 2 = some r
      ∧ r.xstride = s0
      ∧ r.ystride = AutoStride
      ∧ ((1 < nchans → s1 = ((decodedFormat pybuf).size : Int)) →
          ∃ r3, oiio_bufinfo.oiio_bufinfo (splitPixelAxis pybuf nchans width height s0 s1)
              nchans width height depth 2 = some r3
            ∧ r3.format = r.format ∧ r3.error = "" ∧ r.error = ""
            ∧ ∀ y x c : Int,
                y * (r.xstride * width) + x * r.xstride + c * (r.format.size : Int)
                  = y * r3.ystride + x * r3.xstride + c * (r3.format.size : Int)) := by
  have hres := resolveShape_pixels_chans pybuf nchans width height depth s0 s1 (afterGate pybuf)
    hnd hshape hstr
  obtain ⟨r, hr, hx, hy, _⟩ := postCheck_strides pybuf nchans
    { afterGate pybuf with xstride := s0 } (by rw [hstr]; simp)
  obtain ⟨_, _, ax, ay, _, _, _⟩ := assignData_fields pybuf r
  refine ⟨assignData pybuf r, ?_, ?_, ?_, ?_⟩
  · rw [constructor_of_gate pybuf nchans width height depth 2 hgate, hres]
    simp only [Option.some_bind, hr, Option.map_some']
  · rw [ax, hx]
  · rw [ay, hy]; exact afterGate_ystride pybuf
  · intro hlast
    have hpost : postCheck pybuf nchans { afterGate pybuf with xstride := s0 }
        = some { afterGate pybuf with xstride := s0 } := by
      apply postCheck_pass
      intro hn
      refine ⟨s1, by rw [hstr]; rfl, ?_⟩
      show toSizeT s1 = (decodedFormat pybuf).size
      rw [hlast hn]
      exact toSizeT_natCast _ (decodedFormat_size_le pybuf)
    have hrr : r = { afterGate pybuf with xstride := s0 } := by
      rw [hpost] at hr
      exact (Option.some.inj hr).symm
    have h3 := constructor_of_three_axes (splitPixelAxis pybuf nchans width height s0 s1)
      nchans width height depth (s0 * width) s0 s1 hgate rfl rfl rfl hlast
    obtain ⟨f3, e3, x3, y3, _, _, _⟩ := assignData_fields
      (splitPixelAxis pybuf nchans width height s0 s1)
      { afterGate (splitPixelAxis pybuf nchans width height s0 s1) with
        xstride := s0, ystride := s0 * width }
    obtain ⟨af, ae, _, _, _, _, _⟩ := assignData_fields pybuf r
    have hf : (assignData pybuf r).format = decodedFormat pybuf := by rw [af, hrr]; rfl
    refine ⟨_, h3, ?_, ?_, ?_, ?_⟩
    · rw [hf, f3]; rfl
    · rw [e3]; exact afterGate_error _
    · rw [ae, hrr]; exact afterGate_error pybuf
    · intro y x c
      rw [ax, hx, x3, y3, hf, f3]
      rfl

/-- Witness for C8 as amended: width 4, height 2, 3 channels, shape [8, 3] with the
contiguous float32 strides [12, 4]; with the default 12 * 4 as y stride the offsets
are those of the layout [2, 4, 3] with strides [48, 12, 4]. -/
theorem rectangle_merged_pixels_resolved_witness :
    ∃ r r3, oiio_bufinfo.oiio_bufinfo ⟨7, 4, 24, "f", 2, [8, 3], [12, 4]⟩ 3 4 2 1 2 = some r
      ∧ r.xstride = 12
      ∧ r.ystride = AutoStride
      ∧ oiio_bufinfo.oiio_bufinfo ⟨7, 4, 24, "f", 3, [2, 4, 3], [48, 12, 4]⟩ 3 4 2 1 2 = some r3
      ∧ ∀ y x c : Int,
          y * (r.xstride * 4) + x * r.xstride + c * (r.format.size : Int)
            = y * r3.ystride + x * r3.xstride + c * (r3.format.size : Int) := by
  obtain ⟨r, h1, h2, h3, h4⟩ :=
    rectangle_merged_pixels_resolved ⟨7, 4, 24, "f", 2, [8, 3], [12, 4]⟩ 3 4 2 1 12 4
      (by decide) (by decide) (by decide) (by decide)
  obtain ⟨r3, h5, _, _, _, h6⟩ := h4 (by decide)
  exact ⟨r, r3, h1, h2, h3, h5, h6⟩

/-- Counterexample to C8 as stated: for width 4, height 2, 3 channels and the
contiguous float32 buffer of shape [8, 3], the resolved xstride is 12 and the
resolved ystride is the default `AutoStride`, not xstride * width = 48. -/
theorem rectangle_merged_pixels_ystride_unset :
    oiio_bufinfo.oiio_bufinfo ⟨7, 4, 24, "f", 2, [8, 3], [12, 4]⟩ 3 4 2 1 2
        = some { format := TypeDesc.ofBase .FLOAT, data := 7, xstride := 12,
                 ystride := AutoStride, zstride := AutoStride, size := 24, error := "" }
      ∧ AutoStride ≠ 12 * 4 := by
  constructor
  · rfl
  · decide

/-! ### C9: values of `pixeldims` other than 1, 2, 3 -/

/-- Claim C9 (evaluation at the failing input): with `pixeldims = 4` a float32 buffer
of shape [2, 4, 3] that passes the size gate keeps its decoded format FLOAT and gets
the data pointer of the descriptor; only the error message is set. -/
theorem unsupported_pixeldims_keeps_format :
    oiio_bufinfo.oiio_bufinfo ⟨7, 4, 24, "f", 3, [2, 4, 3], [48, 12, 4]⟩ 3 4 2 1 4
      = some { format := TypeDesc.ofBase .FLOAT, data := 7, xstride := AutoStride,
               ystride := AutoStride, zstride := AutoStride, size := 24,
               error := "Can\x27t figure out array shape (pixeldims=4, pydim=3)" } := by
  rfl

/-! ### C10: format Unknown and the error message -/

/-- Claim C10 (evaluation at the failing input): with `pixeldims = 0` a uint8 buffer of
shape [6] that passes the size gate is returned with a format that is not Unknown
and an error message that is not empty. -/
theorem format_known_with_error_message :
    ∃ r, oiio_bufinfo.oiio_bufinfo ⟨7, 1, 6, "B", 1, [6], [1]⟩ 3 2 1 1 0 = some r
      ∧ r.format = TypeDesc.ofBase .UINT8
      ∧ r.format ≠ TypeUnknown
      ∧ r.error = "Can\x27t figure out array shape (pixeldims=0, pydim=1)"
      ∧ r.error ≠ "" := by
  refine ⟨_, rfl, rfl, by decide, rfl, by decide⟩

/-! ### C11: the fields of a successful result -/

/-- Claim C11, as amended: whenever the constructor returns a record whose format is
not Unknown, that format is the format decoded from the format code of the
descriptor, the data pointer is the data pointer of the descriptor, and the size
field is the element count `pybuf.size` of the descriptor (converted to `size_t`),
not its byte size. -/
theorem success_fields (pybuf : buffer_info) (nchans width height depth pixeldims : Int)
    (r : oiio_bufinfo)
    (h : oiio_bufinfo.oiio_bufinfo pybuf nchans width height depth pixeldims = some r)
    (hf : r.format ≠ TypeUnknown) :
    r.format = decodedFormat pybuf ∧ r.data = pybuf.ptr ∧ r.size = toSizeT pybuf.size := by
  exact (constructor_result pybuf nchans width height depth pixeldims r h).1 hf

/-- Witness for C11 as amended: the float32 rectangle 2 x 4 with 3 channels, of 24
elements. -/
theorem success_fields_witness :
    ∃ r, oiio_bufinfo.oiio_bufinfo ⟨7, 4, 24, "f", 3, [2, 4, 3], [48, 12, 4]⟩ 3 4 2 1 2 = some r
      ∧ r.format = TypeDesc.ofBase .FLOAT ∧ r.data = 7 ∧ r.size = 24 :=
  ⟨_, rfl, success_fields ⟨7, 4, 24, "f", 3, [2, 4, 3], [48, 12, 4]⟩ 3 4 2 1 2
    { format := TypeDesc.ofBase .FLOAT, data := 7, xstride := 12, ystride := 48,
      zstride := AutoStride, size := 24, error := "" } rfl (by decide)⟩

/-- Counterexample to C11 as stated: for the float32 rectangle 2 x 4 with 3 channels
the constructor succeeds with size field 24, the element count, whereas the byte
size of the buffer is 4 * 24 = 96. -/
theorem size_field_is_element_count :
    ∃ r, oiio_bufinfo.oiio_bufinfo ⟨7, 4, 24, "f", 3, [2, 4, 3], [48, 12, 4]⟩ 3 4 2 1 2 = some r
      ∧ r.format ≠ TypeUnknown ∧ r.size = 24 ∧ (r.size : Int) ≠ 4 * 24 := by
  refine ⟨_, rfl, by decide, rfl, by decide⟩

/-! ### C12: shapes that match no convention -/

/-- Claim C12, as amended: for `pixeldims` 1, 2 or 3, a buffer with one extent and one
stride per axis that passes the size gate and whose shape matches none of the
conventions accepted for that class is rejected: the format is Unknown, the data
pointer is null and the error message is not empty.  With at most one channel the
message is the shape error of the class: for the classes 1 and 2 the message that
names `pixeldims` and the axis count of the buffer, for the class 3 the fixed
message "Bad dimensions of pixel data". -/
theorem unrecognised_shape_rejected (pybuf : buffer_info)
    (nchans width height depth pixeldims : Int)
    (hclass : pixeldims = 1 ∨ pixeldims = 2 ∨ pixeldims = 3)
    (hwf : OnePerAxis pybuf)
    (hgate : PassesSizeGate pybuf nchans width height depth)
    (hshape : ¬ RecognisedShape pybuf nchans width height depth pixeldims)
    (hback : 1 < nchans → pybuf.strides ≠ []) :
    ∃ r, oiio_bufinfo.oiio_bufinfo pybuf nchans width height depth pixeldims = some r
      ∧ r.format = TypeUnknown
      ∧ r.data = 0
      ∧ r.error ≠ ""
      ∧ (nchans ≤ 1 → pixeldims ≠ 3 → r.error = shapeMessage pixeldims pybuf.ndim)
      ∧ (nchans ≤ 1 → pixeldims = 3 → r.error = badDimensionsMessage) := by
  obtain ⟨r, hr, hf, hd, he, hmsg⟩ := constructor_of_unrecognised pybuf nchans width height
    depth pixeldims hclass hwf hgate hshape hback
  refine ⟨r, hr, hf, hd, he, ?_, ?_⟩
  · intro hn hp
    rw [hmsg hn, shapeErrorMessage, if_neg hp]
  · intro hn hp
    rw [hmsg hn, shapeErrorMessage, if_pos hp]

/-- Witness for C12 as amended: a single-channel float32 rectangle of width 4 and
height 2 passed transposed, as an array of shape [4, 2]. -/
theorem unrecognised_shape_rejected_witness :
    ∃ r, oiio_bufinfo.oiio_bufinfo ⟨7, 4, 8, "f", 2, [4, 2], [8, 4]⟩ 1 4 2 1 2 = some r
      ∧ r.format = TypeUnknown
      ∧ r.data = 0
      ∧ r.error = "Can\x27t figure out array shape (pixeldims=2, pydim=2)" := by
  obtain ⟨r, hr, hf, hd, _, hmsg, _⟩ :=
    unrecognised_shape_rejected ⟨7, 4, 8, "f", 2, [4, 2], [8, 4]⟩ 1 4 2 1 2
      (by decide) (by decide) (by decide) (by decide) (by decide)
  exact ⟨r, hr, hf, hd, hmsg (by decide) (by decide)⟩

/-- Counterexample to C12 as stated: for `pixeldims = 3` a single-channel float32
buffer of shape [2, 4] passes the size gate, matches no convention of the class and
is rejected with the message "Bad dimensions of pixel data", which names neither
the class nor the axis count. -/
theorem volume_shape_error_message :
    PassesSizeGate ⟨7, 4, 8, "f", 2, [2, 4], [16, 4]⟩ 1 4 2 1
      ∧ ¬ RecognisedShape ⟨7, 4, 8, "f", 2, [2, 4], [16, 4]⟩ 1 4 2 1 3
      ∧ oiio_bufinfo.oiio_bufinfo ⟨7, 4, 8, "f", 2, [2, 4], [16, 4]⟩ 1 4 2 1 3
        = some { format := TypeUnknown, data := 0, xstride := AutoStride,
                 ystride := AutoStride, zstride := AutoStride, size := 8,
                 error := "Bad dimensions of pixel data" }
      ∧ "Bad dimensions of pixel data" ≠ shapeMessage 3 2 := by
  refine ⟨by decide, by decide, rfl, by decide⟩

/-! ### C13: `python_array_code` -/

/-- Claim C13: `python_array_code` is a total function; it returns the unsigned 8-bit
code "B" for every descriptor whose base type is not one of the nine directly
mapped ones (in particular for UNKNOWN, INT64, UINT64 and STRING), and for each of
the nine base types UINT8, INT8, UINT16, INT16, UINT32, INT32, FLOAT, DOUBLE, HALF
its own code B, b, H, h, I, i, f, d, e. -/
theorem python_array_code_total (t : TypeDesc) :
    (t.basetype ∉ directlyMapped → python_array_code t = "B")
    ∧ (t.basetype = .UNKNOWN ∨ t.basetype = .INT64 ∨ t.basetype = .UINT64
        ∨ t.basetype = .STRING → python_array_code t = "B")
    ∧ (t.basetype = .UINT8 → python_array_code t = "B")
    ∧ (t.basetype = .INT8 → python_array_code t = "b")
    ∧ (t.basetype = .UINT16 → python_array_code t = "H")
    ∧ (t.basetype = .INT16 → python_array_code t = "h")
    ∧ (t.basetype = .UINT32 → python_array_code t = "I")
    ∧ (t.basetype = .INT32 → python_array_code t = "i")
    ∧ (t.basetype = .FLOAT → python_array_code t = "f")
    ∧ (t.basetype = .DOUBLE → python_array_code t = "d")
    ∧ (t.basetype = .HALF → python_array_code t = "e") := by
  obtain ⟨b, agg, arr⟩ := t
  cases b <;> simp [python_array_code, directlyMapped]

/-! ### C14: `typedesc_from_python_array_code` -/

/-- Claim C14, as amended: `typedesc_from_python_array_code` is a total function; for
every character its result is a scalar descriptor whose base type is Unknown, one
of the nine directly mapped element types, or the signed or unsigned 64-bit integer
(codes `l` and `L`); every code outside b, c, B, h, H, i, I, l, L, f, d, e yields
Unknown, and each of these twelve codes yields a known type. -/
theorem typedesc_from_python_array_code_total (c : Char) :
    (∃ b, typedesc_from_python_array_code c = TypeDesc.ofBase b
        ∧ (b = .UNKNOWN ∨ b ∈ directlyMapped ∨ b = .INT64 ∨ b = .UINT64))
    ∧ (c ∉ recognisedCodes → typedesc_from_python_array_code c = TypeUnknown)
    ∧ (c ∈ recognisedCodes → typedesc_from_python_array_code c ≠ TypeUnknown) := by
  refine ⟨?_, typedesc_from_python_array_code_of_not_recognised c, ?_⟩
  · unfold typedesc_from_python_array_code
    repeat'
      refine ite_typeDesc
        (fun t => ∃ b, t = TypeDesc.ofBase b
          ∧ (b = .UNKNOWN ∨ b ∈ directlyMapped ∨ b = .INT64 ∨ b = .UINT64))
        _ _ _ ⟨_, rfl, by decide⟩ ?_
    exact ⟨_, rfl, by decide⟩
  · intro h
    simp only [recognisedCodes, List.mem_cons, List.mem_singleton, List.not_mem_nil,
      or_false] at h
    rcases h with h | h | h | h | h | h | h | h | h | h | h | h <;> subst h <;> decide

/-- Counterexample to C14 as stated: the code `l` is decoded to the signed 64-bit
integer type, which is neither Unknown nor one of the nine enumerated types. -/
theorem typedesc_from_python_array_code_int64 :
    typedesc_from_python_array_code 'l' = TypeDesc.ofBase .INT64
      ∧ TypeDesc.ofBase .INT64 ≠ TypeUnknown
      ∧ BASETYPE.INT64 ∉ directlyMapped := by
  refine ⟨rfl, by decide, by decide⟩

/-! ### C15: `oiio_attribute_typed` -/

/-- Claim C15: `oiio_attribute_typed` forwards a write to the attribute store only
when the base type is INT, FLOAT or STRING and the number of converted values is
`numelements() * aggregate`: in every other case it returns false and hands back
the store it was given, whatever the write of the store would do, and every other
outcome occurs only under that condition.  When the condition holds and the
converted vector is not empty, the result is that of the one write of the converted
values. -/
theorem attribute_typed_forwards_only_valid {σ T I F S U : Type}
    (toInts : T → List I) (toFloats : T → List F) (toStrings : T → List S)
    (ustring : S → U)
    (oiio_attribute : σ → String → TypeDesc → AttributeData I F U → Bool × σ)
    (store : σ) (name : String) (type : TypeDesc) (obj : T) :
    (¬ WriteForwardable toInts toFloats toStrings type obj →
        oiio_attribute_typed toInts toFloats toStrings ustring oiio_attribute store name type obj
          = some (false, store))
    ∧ (∀ res, oiio_attribute_typed toInts toFloats toStrings ustring oiio_attribute store name
          type obj = some res → res ≠ (false, store) →
        WriteForwardable toInts toFloats toStrings type obj)
    ∧ (type.basetype = .INT32 → (toInts obj).length = type.numelements * type.aggregate →
        toInts obj ≠ [] →
        oiio_attribute_typed toInts toFloats toStrings ustring oiio_attribute store name type obj
          = some (oiio_attribute store name type (.ints (toInts obj))))
    ∧ (type.basetype = .FLOAT → (toFloats obj).length = type.numelements * type.aggregate →
        toFloats obj ≠ [] →
        oiio_attribute_typed toInts toFloats toStrings ustring oiio_attribute store name type obj
          = some (oiio_attribute store name type (.floats (toFloats obj))))
    ∧ (type.basetype = .STRING → (toStrings obj).length = type.numelements * type.aggregate →
        toStrings obj ≠ [] →
        oiio_attribute_typed toInts toFloats toStrings ustring oiio_attribute store name type obj
          = some (oiio_attribute store name type (.ustrings ((toStrings obj).map ustring)))) := by
  have hneg : ¬ WriteForwardable toInts toFloats toStrings type obj →
      oiio_attribute_typed toInts toFloats toStrings ustring oiio_attribute store name type obj
        = some (false, store) := by
    intro h
    unfold WriteForwardable at h
    simp only [not_or, not_and] at h
    obtain ⟨hi, hf, hs⟩ := h
    unfold oiio_attribute_typed
    by_cases h1 : type.basetype = .INT32
    · simp only [if_pos h1, if_neg (hi h1)]
    · by_cases h2 : type.basetype = .FLOAT
      · simp only [if_neg h1, if_pos h2, if_neg (hf h2)]
      · by_cases h3 : type.basetype = .STRING
        · simp only [if_neg h1, if_neg h2, if_pos h3, if_neg (hs h3)]
        · simp only [if_neg h1, if_neg h2, if_neg h3]
  refine ⟨hneg, ?_, ?_, ?_, ?_⟩
  · intro res hres hne
    by_contra hnot
    rw [hneg hnot] at hres
    exact hne (Option.some.inj hres).symm
  · intro hb hl hne
    unfold oiio_attribute_typed
    simp only [if_pos hb, if_pos hl]
    cases hv : toInts obj with
    | nil => exact absurd hv hne
    | cons v vs => rfl
  · intro hb hl hne
    have h1 : ¬ type.basetype = .INT32 := by rw [hb]; decide
    unfold oiio_attribute_typed
    simp only [if_neg h1, if_pos hb, if_pos hl]
    cases hv : toFloats obj with
    | nil => exact absurd hv hne
    | cons v vs => rfl
  · intro hb hl hne
    have h1 : ¬ type.basetype = .INT32 := by rw [hb]; decide
    have h2 : ¬ type.basetype = .FLOAT := by rw [hb]; decide
    unfold oiio_attribute_typed
    simp only [if_neg h1, if_neg h2, if_pos hb, if_pos hl]
    cases hv : toStrings obj with
    | nil => exact absurd hv hne
    | cons v vs => rfl

/-- Witness for C15, with a store that records the writes it receives: two values for
an INT descriptor of aggregate 3 are refused and the record of writes stays empty;
three values are written. -/
theorem attribute_typed_forwards_only_valid_witness :
    oiio_attribute_typed (fun t : List Int => t) (fun _ => ([] : List Int))
        (fun _ => ([] : List String)) (fun s => s)
        (fun log name _ _ => (true, name :: log)) ([] : List String) "threads"
        { basetype := .INT32, aggregate := 3 } [1, 2] = some (false, [])
    ∧ oiio_attribute_typed (fun t : List Int => t) (fun _ => ([] : List Int))
        (fun _ => ([] : List String)) (fun s => s)
        (fun log name _ _ => (true, name :: log)) ([] : List String) "threads"
        { basetype := .INT32, aggregate := 3 } [1, 2, 3] = some (true, ["threads"]) :=
  ⟨(attribute_typed_forwards_only_valid (fun t : List Int => t) (fun _ => ([] : List Int))
      (fun _ => ([] : List String)) (fun s => s)
      (fun log name _ _ => (true, name :: log)) ([] : List String) "threads"
      { basetype := .INT32, aggregate := 3 } [1, 2]).1 (by decide),
    (attribute_typed_forwards_only_valid (fun t : List Int => t) (fun _ => ([] : List Int))
      (fun _ => ([] : List String)) (fun s => s)
      (fun log name _ _ => (true, name :: log)) ([] : List String) "threads"
      { basetype := .INT32, aggregate := 3 } [1, 2, 3]).2.2.1 rfl (by decide) (by decide)⟩

/-! ### C16: `oiio_getattribute_typed` -/

/-- Claim C16: `oiio_getattribute_typed` returns `None` without a query to the store
when the type is Unknown; otherwise it makes one query and returns `None` when the
store misses or the base type is none of INT, FLOAT, STRING, and the decoded value
when the store answers and the base type is one of the three.  A value is thus
returned only when the type is not Unknown, the lookup succeeds and the base type
is INT, FLOAT or STRING. -/
theorem getattribute_typed_result {D V : Type}
    (oiio_getattribute : String → TypeDesc → Option D)
    (intVal floatVal stringVal : D → TypeDesc → V)
    (name : String) (type : TypeDesc) :
    (type = TypeUnknown →
        oiio_getattribute_typed oiio_getattribute intVal floatVal stringVal name type
          = (none, []))
    ∧ (type ≠ TypeUnknown → oiio_getattribute name type = none →
        oiio_getattribute_typed oiio_getattribute intVal floatVal stringVal name type
          = (none, [(name, type)]))
    ∧ (type ≠ TypeUnknown → type.basetype ≠ .INT32 → type.basetype ≠ .FLOAT →
        type.basetype ≠ .STRING →
        oiio_getattribute_typed oiio_getattribute intVal floatVal stringVal name type
          = (none, [(name, type)]))
    ∧ (∀ v, (oiio_getattribute_typed oiio_getattribute intVal floatVal stringVal name
          type).1 = some v →
        type ≠ TypeUnknown
          ∧ (oiio_getattribute_typed oiio_getattribute intVal floatVal stringVal name
              type).2 = [(name, type)]
          ∧ ∃ data, oiio_getattribute name type = some data
              ∧ ((type.basetype = .INT32 ∧ v = intVal data type)
                ∨ (type.basetype = .FLOAT ∧ v = floatVal data type)
                ∨ (type.basetype = .STRING ∧ v = stringVal data type))) := by
  refine ⟨?_, ?_, ?_, ?_⟩
  · intro h
    unfold oiio_getattribute_typed
    rw [if_pos h]
  · intro h hmiss
    unfold oiio_getattribute_typed
    rw [if_neg h, hmiss]
  · intro h h1 h2 h3
    unfold oiio_getattribute_typed
    rw [if_neg h]
    cases oiio_getattribute name type with
    | none => rfl
    | some data => simp only [if_neg h1, if_neg h2, if_neg h3]
  · intro v hv
    unfold oiio_getattribute_typed at hv ⊢
    by_cases h : type = TypeUnknown
    · rw [if_pos h] at hv
      simp at hv
    · rw [if_neg h] at hv ⊢
      refine ⟨h, ?_⟩
      cases hq : oiio_getattribute name type with
      | none => rw [hq] at hv; simp at hv
      | some data =>
        rw [hq] at hv
        simp only at hv ⊢
        by_cases h1 : type.basetype = .INT32
        · simp only [if_pos h1] at hv ⊢
          exact ⟨trivial, data, rfl, Or.inl ⟨h1, (Option.some.inj hv).symm⟩⟩
        · by_cases h2 : type.basetype = .FLOAT
          · simp only [if_neg h1, if_pos h2] at hv ⊢
            exact ⟨trivial, data, rfl, Or.inr (Or.inl ⟨h2, (Option.some.inj hv).symm⟩)⟩
          · by_cases h3 : type.basetype = .STRING
            · simp only [if_neg h1, if_neg h2, if_pos h3] at hv ⊢
              exact ⟨trivial, data, rfl, Or.inr (Or.inr ⟨h3, (Option.some.inj hv).symm⟩)⟩
            · simp only [if_neg h1, if_neg h2, if_neg h3] at hv
              simp at hv

/-- Witness for C16, with a store that holds the value 8 under the name "threads":
the type Unknown gives `None` and no query, a missing name gives `None` after one
query, and the INT lookup of "threads" gives 8. -/
theorem getattribute_typed_result_witness :
    oiio_getattribute_typed (fun name _ => if name = "threads" then some (8 : Int) else none)
        (fun d _ => d) (fun d _ => d) (fun d _ => d) "threads" TypeUnknown = (none, [])
    ∧ oiio_getattribute_typed (fun name _ => if name = "threads" then some (8 : Int) else none)
        (fun d _ => d) (fun d _ => d) (fun d _ => d) "missing" (TypeDesc.ofBase .INT32)
        = (none, [("missing", TypeDesc.ofBase .INT32)]) :=
  ⟨(getattribute_typed_result (fun name _ => if name = "threads" then some (8 : Int) else none)
      (fun d _ => d) (fun d _ => d) (fun d _ => d) "threads" TypeUnknown).1 rfl,
    (getattribute_typed_result (fun name _ => if name = "threads" then some (8 : Int) else none)
      (fun d _ => d) (fun d _ => d) (fun d _ => d) "missing" (TypeDesc.ofBase .INT32)).2.1
      (by decide) (by decide)⟩

/-! ### C17: round trip of the format codes -/

/-- Claim C17: on the nine directly mapped base types the two translations are
inverse to each other: the code of a descriptor of base type `b` is a single
character that is decoded to the scalar type `b`, and each of the codes B, b, H, h,
I, i, f, d, e is decoded to a type whose code is that one-character string. -/
theorem format_code_round_trip :
    (∀ b ∈ directlyMapped, ∀ (agg : Nat) (arr : Int),
        ∃ c, (python_array_code { basetype := b, aggregate := agg, arraylen := arr }).data = [c]
          ∧ typedesc_from_python_array_code c = TypeDesc.ofBase b)
    ∧ (∀ c ∈ directCodes,
        python_array_code (typedesc_from_python_array_code c) = String.singleton c) := by
  constructor
  · intro b hb agg arr
    simp only [directlyMapped, List.mem_cons, List.mem_singleton, List.not_mem_nil,
      or_false] at hb
    rcases hb with h | h | h | h | h | h | h | h | h <;> subst h <;> exact ⟨_, rfl, rfl⟩
  · intro c hc
    simp only [directCodes, List.mem_cons, List.mem_singleton, List.not_mem_nil,
      or_false] at hc
    rcases hc with h | h | h | h | h | h | h | h | h <;> subst h <;> rfl

/-! ### C18: reads of shape and strides -/

/-- Claim C18, as amended: for a descriptor with one extent and one stride per axis
whose element count is the product of its extents, and a geometry for which neither
`depth * nchans` (in `int`) nor the product
`width * height * (depth * nchans)` (in 64 bits) overflows, the constructor
returns a record, that is, it reads no `shape[i]` or `strides[i]` outside the
vectors and no `strides.back()` of an empty vector; in particular the post-check,
reached when the size gate is passed, finds `nchans > 1` only when `ndim >= 1`. -/
theorem reads_within_bounds (pybuf : buffer_info)
    (nchans width height depth pixeldims : Int)
    (hwf : OnePerAxis pybuf)
    (hprod : pybuf.size = pybuf.shape.prod)
    (hw : InRange32 width) (hh : InRange32 height) (hdc : InRange32 (depth * nchans))
    (h64 : InRange64 (width * height * (depth * nchans))) :
    (∃ r, oiio_bufinfo.oiio_bufinfo pybuf nchans width height depth pixeldims = some r)
      ∧ (PassesSizeGate pybuf nchans width height depth → 1 < nchans → 1 ≤ pybuf.ndim) := by
  have hnd : PassesSizeGate pybuf nchans width height depth → 1 < nchans → 1 ≤ pybuf.ndim :=
    gate_without_axes pybuf nchans width height depth hwf hprod hw hh hdc h64
  refine ⟨?_, hnd⟩
  apply constructor_isSome pybuf nchans width height depth pixeldims hwf
  intro hgate hn hempty
  have h1 := hnd hgate hn
  have h2 := hwf.2
  rw [hempty] at h2
  simp only [List.length_nil, Nat.cast_zero] at h2
  omega

/-- Witness for C18 as amended: the float32 rectangle 2 x 4 with 3 channels. -/
theorem reads_within_bounds_witness :
    ∃ r, oiio_bufinfo.oiio_bufinfo ⟨7, 4, 24, "f", 3, [2, 4, 3], [48, 12, 4]⟩ 3 4 2 1 2 = some r :=
  (reads_within_bounds ⟨7, 4, 24, "f", 3, [2, 4, 3], [48, 12, 4]⟩ 3 4 2 1 2
    (by decide) (by decide) (by decide) (by decide) (by decide) (by decide)).1

/-- Counterexample to C18 as stated: a float32 descriptor without axes (one element,
empty shape and strides) with width 998724481, height 1119412321, depth 1 and 33
channels meets the hypotheses of the claim, `depth * nchans` = 33 does not overflow,
but the 64-bit product is 2 * 2^64 + 1 and wraps to 1, so the size gate is passed and
the post-check reads `strides.back()` of the empty vector with `nchans > 1` and
`ndim = 0`. -/
theorem last_stride_read_without_axes :
    OnePerAxis ⟨7, 4, 1, "f", 0, [], []⟩
      ∧ (1 : Int) = ([] : List Int).prod
      ∧ InRange32 (1 * 33)
      ∧ (998724481 : Int) * 1119412321 * (1 * 33) = 2 * 18446744073709551616 + 1
      ∧ PassesSizeGate ⟨7, 4, 1, "f", 0, [], []⟩ 33 998724481 1119412321 1
      ∧ oiio_bufinfo.oiio_bufinfo ⟨7, 4, 1, "f", 0, [], []⟩ 33 998724481 1119412321 1 2 = none := by
  refine ⟨by decide, by decide, by decide, by decide, by decide, rfl⟩

/-! ### C19: the data pointer -/

/-- Claim C19: every record that the constructor returns has the data pointer of the
descriptor when its format is not Unknown and the null pointer, its initial value,
when its format is Unknown, the early return of the size gate included; for a
descriptor whose pointer is not null the data pointer is thus the descriptor's
exactly when the format is not Unknown.  A record is returned for every descriptor
with one extent and one stride per axis that has an axis when `nchans > 1`. -/
theorem data_pointer_iff_format_known (pybuf : buffer_info)
    (nchans width height depth pixeldims : Int) :
    (∀ r, oiio_bufinfo.oiio_bufinfo pybuf nchans width height depth pixeldims = some r →
        (r.format ≠ TypeUnknown → r.data = pybuf.ptr)
        ∧ (r.format = TypeUnknown → r.data = 0)
        ∧ (pybuf.ptr ≠ 0 → (r.data = pybuf.ptr ↔ r.format ≠ TypeUnknown)))
    ∧ (¬ PassesSizeGate pybuf nchans width height depth →
        ∃ r, oiio_bufinfo.oiio_bufinfo pybuf nchans width height depth pixeldims = some r
          ∧ r.format = TypeUnknown ∧ r.data = 0)
    ∧ (OnePerAxis pybuf → (1 < nchans → pybuf.strides ≠ []) →
        ∃ r, oiio_bufinfo.oiio_bufinfo pybuf nchans width height depth pixeldims = some r) := by
  refine ⟨?_, ?_, ?_⟩
  · intro r h
    obtain ⟨hknown, hunknown⟩ := constructor_result pybuf nchans width height depth pixeldims r h
    refine ⟨fun hf => (hknown hf).2.1, hunknown, ?_⟩
    intro hptr
    constructor
    · intro hd hf
      rw [hunknown hf] at hd
      exact hptr hd.symm
    · intro hf
      exact (hknown hf).2.1
  · intro hgate
    refine ⟨_, constructor_of_gate_failure pybuf nchans width height depth pixeldims hgate,
      rfl, ?_⟩
    exact (decodeFormat_fields pybuf oiio_bufinfo.initial).1
  · intro hwf hback
    exact constructor_isSome pybuf nchans width height depth pixeldims hwf (fun _ => hback)

/-- Witness for C19: a float32 code with item size 8 is stopped by the size gate
with a null data pointer, and the float32 rectangle 2 x 4 with 3 channels gets the
pointer 7 of its descriptor. -/
theorem data_pointer_iff_format_known_witness :
    (∃ r, oiio_bufinfo.oiio_bufinfo ⟨7, 8, 24, "f", 3, [2, 4, 3], [96, 24, 8]⟩ 3 4 2 1 2 = some r
        ∧ r.format = TypeUnknown ∧ r.data = 0)
    ∧ (∃ r, oiio_bufinfo.oiio_bufinfo ⟨7, 4, 24, "f", 3, [2, 4, 3], [48, 12, 4]⟩ 3 4 2 1 2
          = some r
        ∧ r.format ≠ TypeUnknown ∧ r.data = 7) :=
  ⟨(data_pointer_iff_format_known ⟨7, 8, 24, "f", 3, [2, 4, 3], [96, 24, 8]⟩ 3 4 2 1 2).2.1
      (by decide),
    ⟨{ format := TypeDesc.ofBase .FLOAT, data := 7, xstride := 12, ystride := 48,
       zstride := AutoStride, size := 24, error := "" }, rfl, by decide,
      ((data_pointer_iff_format_known ⟨7, 4, 24, "f", 3, [2, 4, 3], [48, 12, 4]⟩ 3 4 2 1 2).1
        _ rfl).1 (by decide)⟩⟩

/-! ### C20: the span conventions [W, C] and [W * C] -/

/-- Claim C20, as amended: for `pixeldims = 1`, positive `W` and `C` whose product fits
in a signed 32-bit `int` and a recognised element format of size `s`, the contiguous
buffer of shape [W, C] (strides [C * s, s]) and the contiguous flattened buffer of
shape [W * C] (strides [s]) are both resolved successfully with xstride = C * s, so
that every (x, c) has the same byte offset x * xstride + c * s in both. -/
theorem span_layouts_agree (ptr : Nat) (code : Char) (W C : Int)
    (hW : 0 < W) (hC : 0 < C) (hW32 : InRange32 W) (hC32 : InRange32 C)
    (hfit : InRange32 (W * C))
    (hknown : typedesc_from_python_array_code code ≠ TypeUnknown) :
    ∃ rA rB, oiio_bufinfo.oiio_bufinfo (spanBuffer ptr code W C) C W 1 1 1 = some rA
      ∧ oiio_bufinfo.oiio_bufinfo (flatSpanBuffer ptr code W C) C W 1 1 1 = some rB
      ∧ rA.format = typedesc_from_python_array_code code
      ∧ rB.format = typedesc_from_python_array_code code
      ∧ rA.error = "" ∧ rB.error = ""
      ∧ rA.data = ptr ∧ rB.data = ptr
      ∧ rA.xstride = C * ((typedesc_from_python_array_code code).size : Int)
      ∧ rB.xstride = C * ((typedesc_from_python_array_code code).size : Int)
      ∧ ∀ x c : Int,
          x * rA.xstride + c * ((typedesc_from_python_array_code code).size : Int)
            = x * rB.xstride + c * ((typedesc_from_python_array_code code).size : Int) := by
  have hs8 := typedesc_from_python_array_code_size_le code
  obtain ⟨hdA, hgA⟩ := span_gate code W C (spanBuffer ptr code W C) hW hW32 hC32 rfl rfl rfl
  obtain ⟨hdB, hgB⟩ := span_gate code W C (flatSpanBuffer ptr code W C) hW hW32 hC32 rfl rfl rfl
  -- the buffer of shape [W, C]
  have hresA := resolveShape_wc (spanBuffer ptr code W C) C W 1 1 _ _
    (afterGate (spanBuffer ptr code W C)) rfl rfl rfl
  have hpostA := postCheck_pass (spanBuffer ptr code W C) C
    { afterGate (spanBuffer ptr code W C) with
      xstride := C * ((typedesc_from_python_array_code code).size : Int) }
    (fun _ => ⟨_, rfl, by
      show toSizeT _ = (decodedFormat (spanBuffer ptr code W C)).size
      rw [hdA]; exact toSizeT_natCast _ hs8⟩)
  have hA := constructor_of_resolved _ C W 1 1 1 _ hgA hresA hpostA
  obtain ⟨fA, eA, xA, _, _, _, dA⟩ := assignData_fields (spanBuffer ptr code W C)
    { afterGate (spanBuffer ptr code W C) with
      xstride := C * ((typedesc_from_python_array_code code).size : Int) }
  -- the flattened buffer
  have hshapeB : (flatSpanBuffer ptr code W C).shape = [wrap32 (W * C)] := by
    rw [wrap32_of_inRange _ hfit]; rfl
  have hresB := resolveShape_flat_span (flatSpanBuffer ptr code W C) C W 1 1 _
    (afterGate (flatSpanBuffer ptr code W C)) rfl hshapeB rfl
  have hx64 : wrap64 (((typedesc_from_python_array_code code).size : Int) * C)
      = C * ((typedesc_from_python_array_code code).size : Int) := by
    have h9 : ((typedesc_from_python_array_code code).size : Int) * C ≤ 8 * C :=
      Int.mul_le_mul_of_nonneg_right (by omega) (by omega)
    have h10 : 0 ≤ ((typedesc_from_python_array_code code).size : Int) * C :=
      Int.mul_nonneg (by omega) (by omega)
    unfold InRange32 at hC32
    rw [wrap64_of_inRange _ (by unfold InRange64; constructor <;> omega)]
    ring
  rw [hx64] at hresB
  have hpostB := postCheck_pass (flatSpanBuffer ptr code W C) C
    { afterGate (flatSpanBuffer ptr code W C) with
      xstride := C * ((typedesc_from_python_array_code code).size : Int) }
    (fun _ => ⟨_, rfl, by
      show toSizeT _ = (decodedFormat (flatSpanBuffer ptr code W C)).size
      rw [hdB]; exact toSizeT_natCast _ hs8⟩)
  have hB := constructor_of_resolved _ C W 1 1 1 _ hgB hresB hpostB
  obtain ⟨fB, eB, xB, _, _, _, dB⟩ := assignData_fields (flatSpanBuffer ptr code W C)
    { afterGate (flatSpanBuffer ptr code W C) with
      xstride := C * ((typedesc_from_python_array_code code).size : Int) }
  have hfA : (afterGate (spanBuffer ptr code W C)).format
      = typedesc_from_python_array_code code := hdA
  have hfB : (afterGate (flatSpanBuffer ptr code W C)).format
      = typedesc_from_python_array_code code := hdB
  refine ⟨_, _, hA, hB, ?_, ?_, ?_, ?_, ?_, ?_, ?_, ?_, ?_⟩
  · rw [fA]; exact hfA
  · rw [fB]; exact hfB
  · rw [eA]; exact afterGate_error _
  · rw [eB]; exact afterGate_error _
  · rw [dA]
    show (if (afterGate (spanBuffer ptr code W C)).format = TypeUnknown then _ else _) = _
    rw [hfA, if_neg hknown]; rfl
  · rw [dB]
    show (if (afterGate (flatSpanBuffer ptr code W C)).format = TypeUnknown then _ else _) = _
    rw [hfB, if_neg hknown]; rfl
  · rw [xA]
  · rw [xB]
  · intro x c
    rw [xA, xB]

/-- Witness for C20 as amended: 4 pixels of 3 float32 channels; both layouts give
xstride 12. -/
theorem span_layouts_agree_witness :
    ∃ rA rB, oiio_bufinfo.oiio_bufinfo ⟨7, 4, 12, "f", 2, [4, 3], [12, 4]⟩ 3 4 1 1 1 = some rA
      ∧ oiio_bufinfo.oiio_bufinfo ⟨7, 4, 12, "f", 1, [12], [4]⟩ 3 4 1 1 1 = some rB
      ∧ rA.xstride = 12 ∧ rB.xstride = 12
      ∧ rA.format = TypeDesc.ofBase .FLOAT ∧ rB.format = TypeDesc.ofBase .FLOAT
      ∧ rA.error = "" ∧ rB.error = "" := by
  obtain ⟨rA, rB, hA, hB, fA, fB, eA, eB, _, _, xA, xB, _⟩ :=
    span_layouts_agree 7 'f' 4 3 (by decide) (by decide) (by decide) (by decide) (by decide)
      (by decide)
  exact ⟨rA, rB, hA, hB, xA, xB, fA, fB, eA, eB⟩

/-- Counterexample to C20 as stated: for W = C = 65536 and uint8 elements the
buffer of shape [W, C] is resolved with xstride 65536, but the flattened buffer of
2^32 elements is rejected, because its extent is compared with `width * nchans`
computed in `int`, which is 0. -/
theorem flat_span_rejected_on_overflow :
    oiio_bufinfo.oiio_bufinfo (spanBuffer 7 'B' 65536 65536) 65536 65536 1 1 1
        = some { format := TypeDesc.ofBase .UINT8, data := 7, xstride := 65536,
                 ystride := AutoStride, zstride := AutoStride, size := 4294967296,
                 error := "" }
      ∧ flatSpanBuffer 7 'B' 65536 65536 = ⟨7, 1, 4294967296, "B", 1, [4294967296], [1]⟩
      ∧ ∃ rB, oiio_bufinfo.oiio_bufinfo (flatSpanBuffer 7 'B' 65536 65536) 65536 65536 1 1 1
          = some rB ∧ rB.format = TypeUnknown ∧ rB.error ≠ "" := by
  refine ⟨rfl, by decide, _, rfl, rfl, by decide⟩

end PyOpenImageIO
